import Mathlib

/-!
# nvidia-rim-to-coserv: the `main` pipeline of `main.go`

The program is one function, `main`.  It parses the command line for the
`-rimid` flag, fetches a RIM from the NVIDIA RIM service, checks the declared
format, base64-decodes the payload, decodes the signed CoRIM, walks its tags
and transplants the reference-value triples of every CoMID tag into a CoSERV
result set.

Everything `main` calls lives in other packages (`flag`, `net/http`, `io`,
`encoding/json`, `encoding/base64`, `veraison/corim`).  Those calls are the
fields of the record `Deps`: the development quantifies over every behaviour
they can have.  What `main` itself does (the order of the calls, the gates,
the slicing of a tag, the loops, the exits) is translated line by line.

Three of the packages are also given as functions, `Flag.Parse`,
`Base64.DecodeString` and `Json.Unmarshal`, written after the documented
behaviour of `flag`, `encoding/base64` and `encoding/json`.  They serve to run
the program on a concrete command line and a concrete response body.

A run is recorded as the list of calls and log lines it performs, how the
process ends, and the result set it holds when it ends.  A log line is
recorded as its format string and arguments (the logger's time stamp is left
out).  `log.Fatalf` writes its line and calls `os.Exit(1)`, so the `os.Exit(1)`
that follows it in the source is never reached.  The deferred
`resp.Body.Close()` is not recorded.  A run-time panic of Go that nothing
recovers ends the process with exit status 2.
-/

namespace RimToCoserv

/-- A Go byte slice, by its elements `0 .. len-1`. -/
abbrev Bytes := List Nat

/-- The API response from a call to the RIM service (`main.go`, lines 23-30). -/
structure RimServiceResponse where
  Id : String
  Rim : String
  Sha256 : String
  LastUpdated : String
  RimFormat : String
  RequestId : String
deriving DecidableEq, Repr

/-- The zero value of `var rimServiceResponse RimServiceResponse` (line 68):
every string field is empty. -/
def RimServiceResponse.zero : RimServiceResponse :=
  ⟨"", "", "", "", "", ""⟩

/-- An argument handed to a formatting call (`%s`, `%d`, `%v`). -/
inductive Arg where
  | str (s : String)
  | int (n : Int)
  | bytes (b : Bytes)
  | err (msg : String)
deriving DecidableEq, Repr

/-- What a run does that is visible outside `main`: output, log lines and the
calls into other packages, in program order.  `T` is the type of a
reference-value triple (`comid.ValueTriple`). -/
inductive Event (T : Type) where
  /-- What package `flag` writes when `flag.Parse` ends the process itself: its
  error line, if any, and its own usage text. -/
  | flagOutput
  | fmtPrintf (format : String) (args : List Arg)
  | logPrintf (format : String) (args : List Arg)
  | logFatalf (format : String) (args : List Arg)
  | httpGet (url : String)
  | ioReadAll
  | jsonUnmarshal (body : Bytes)
  | base64DecodeString (s : String)
  | fromCOSE (buf : Bytes)
  | comidFromCBOR (data : Bytes)
  | addReferenceValues (triple : T)
deriving DecidableEq, Repr

/-- How the process ends. -/
inductive Outcome where
  /-- Control reached the end of `main`. -/
  | returned
  /-- Leaving through `os.Exit(code)`; `log.Fatalf` is a log line and `os.Exit(1)`. -/
  | exited (code : Nat)
  /-- A Go run-time panic (here: slice bounds out of range). -/
  | panicked
deriving DecidableEq, Repr

/-- The exit status of the process: 0 when `main` returns, the argument of
`os.Exit`, and 2 for a run-time panic that nothing recovers. -/
def Outcome.exitStatus : Outcome → Nat
  | .returned => 0
  | .exited code => code
  | .panicked => 2

/-- The part of `*http.Response` that `main` reads: `StatusCode`, `Status`, and
what `io.ReadAll(resp.Body)` returns (the bytes read and the error, if any). -/
structure Response where
  StatusCode : Int
  Status : String
  readAll : Bytes × Option String
deriving DecidableEq, Repr

/-- What `flag.Parse` does with the command line (lines 36-37; the flag set has
the one string flag `rimid`, default `""`, and error handling `ExitOnError`).
Either it returns and `*rimid` holds `rimid`, or it ends the process itself
with status `code`: 0 after `-h` or `-help`, 2 after a command line it
rejects. -/
inductive FlagParse where
  | parsed (rimid : String)
  | exits (code : Nat)
deriving DecidableEq, Repr

/-- The packages `main` calls, as parameters.
* `Args0` is `os.Args[0]`.
* `flagParse args` is `flag.String("rimid", "", ...)` followed by `flag.Parse()`
  on the command line `args` (`os.Args[1:]`).
* `httpGet` is `http.Get`.
* `jsonUnmarshal body v` is `json.Unmarshal(body, &v)`: the value of `v`
  afterwards and the error it returns.
* `base64DecodeString` is `base64.StdEncoding.DecodeString`.
* `fromCOSE buf` is `scorim.FromCOSE(buf)` followed by reading
  `scorim.UnsignedCorim.Tags`.
* `ComidTag` is the constant `corim.ComidTag`.
* `comidFromCBOR data` is `c.FromCBOR(data)` followed by reading
  `c.Triples.ReferenceValues.Values`. -/
structure Deps (T : Type) where
  Args0 : String
  flagParse : List String → FlagParse
  httpGet : String → Except String Response
  jsonUnmarshal : Bytes → RimServiceResponse → RimServiceResponse × Option String
  base64DecodeString : String → Except String Bytes
  fromCOSE : Bytes → Except String (List Bytes)
  ComidTag : Bytes
  comidFromCBOR : Bytes → Except String (List T)

/-- The result set `*coserv.NewResultSet()` (line 92): no triples. -/
def NewResultSet {T : Type} : List T := []

/-- The call `coservResult.AddReferenceValues(triple)` (line 113): the triple is
appended. -/
def AddReferenceValues {T : Type} (coservResult : List T) (triple : T) : List T :=
  coservResult ++ [triple]

/-- Line 96, `cborTag, cborData := t[:3], t[3:]`.  `t[3:]` is `t[3:len(t)]` and
needs `3 ≤ len(t)`; with fewer than three bytes the statement panics (at `t[:3]`
when `cap(t) < 3`, at `t[3:]` otherwise), which is `none`. -/
def sliceTag (t : Bytes) : Option (Bytes × Bytes) :=
  if 3 ≤ t.length then some (t.take 3, t.drop 3) else none

/-- The inner loop, lines 110-114: every triple is logged and appended, in
order.  Returns the events of the loop and the result set after it. -/
def addTriples {T : Type} : List T → List T → List (Event T) × List T
  | [], coservResult => ([], coservResult)
  | triple :: rest, coservResult =>
    let r := addTriples rest (AddReferenceValues coservResult triple)
    (Event.logPrintf "Adding a reference value triple to the result." []
      :: Event.addReferenceValues triple :: r.1, r.2)

/-- The state in which the tag loop stops. -/
structure Walk (T : Type) where
  trace : List (Event T)
  outcome : Outcome
  coservResult : List T

/-- The tag loop, lines 95-116, started with result set `coservResult`.
`outcome = returned` means the loop ran over every tag. -/
def walkTags {T : Type} (X : Deps T) : List Bytes → List T → Walk T
  | [], coservResult => ⟨[], .returned, coservResult⟩
  | t :: rest, coservResult =>
    match sliceTag t with
    | none => ⟨[], .panicked, coservResult⟩
    | some (cborTag, cborData) =>
      if cborTag = X.ComidTag then
        match X.comidFromCBOR cborData with
        | .error err =>
          ⟨[Event.logPrintf "Found a CoMID tag." [], Event.comidFromCBOR cborData,
            Event.logFatalf "Failed to populate CoMID from CBOR: %v" [Arg.err err]],
           .exited 1, coservResult⟩
        | .ok values =>
          let inner := addTriples values coservResult
          let r := walkTags X rest inner.2
          ⟨[Event.logPrintf "Found a CoMID tag." [], Event.comidFromCBOR cborData]
            ++ inner.1 ++ r.trace, r.outcome, r.coservResult⟩
      else walkTags X rest coservResult

/-- A finished run of `main`: what it did, how it ended, and the result set it
held at the end (`none` when line 92 was never reached). -/
structure Run (T : Type) where
  trace : List (Event T)
  outcome : Outcome
  coservResult : Option (List T)

/-- The query URL of line 45: `%s` prints the identifier as it is. -/
def urlStr (rimid : String) : String :=
  "https://rim.attestation.nvidia.com/v1/rim/" ++ rimid

/-- Lines 84-116: COSE decoding and the tag walk, after `trace`. -/
def decodeAndWalk {T : Type} (X : Deps T) (trace : List (Event T)) (corimBytes : Bytes) :
    Run T :=
  match X.fromCOSE corimBytes with
  | .error err =>
    ⟨trace ++ [Event.fromCOSE corimBytes,
        Event.logFatalf "Failed to parse COSE: %v" [Arg.err err]], .exited 1, none⟩
  | .ok tags =>
    let w := walkTags X tags NewResultSet
    ⟨trace ++ [Event.fromCOSE corimBytes] ++ w.trace, w.outcome, some w.coservResult⟩

/-- Lines 68-116: the envelope decoder and what follows it, after `trace`. -/
def decodeEnvelope {T : Type} (X : Deps T) (trace : List (Event T)) (body : Bytes) : Run T :=
  let rimServiceResponse := (X.jsonUnmarshal body RimServiceResponse.zero).1
  let trace := trace ++ [Event.jsonUnmarshal body]
  if rimServiceResponse.RimFormat ≠ "CORIM" then
    ⟨trace ++ [Event.logFatalf
        "Expected RIM to be formatted as CORIM, but the actual format is %s"
        [Arg.str rimServiceResponse.RimFormat]], .exited 1, none⟩
  else
    match X.base64DecodeString rimServiceResponse.Rim with
    | .error _ =>
      ⟨trace ++ [Event.base64DecodeString rimServiceResponse.Rim,
          Event.logFatalf "Failed to base64 decode the RIM byte string %s"
            [Arg.str rimServiceResponse.Rim]], .exited 1, none⟩
    | .ok corimBytes =>
      decodeAndWalk X
        (trace ++ [Event.base64DecodeString rimServiceResponse.Rim,
          Event.logPrintf "Decoded %d bytes of CoRIM data." [Arg.int corimBytes.length]])
        corimBytes

/-- Lines 39-117: the program from the point where `flag.Parse` has returned
and `*rimid` holds `rimid`. -/
def mainFrom {T : Type} (X : Deps T) (rimid : String) : Run T :=
  if rimid = "" then
    ⟨[Event.fmtPrintf "Usage: %s -rimid=<rim_identifier>\n" [Arg.str X.Args0]],
      .exited 1, none⟩
  else
    let trace := [Event.logPrintf "Requesting RIM file from: %s" [Arg.str (urlStr rimid)],
      Event.httpGet (urlStr rimid)]
    match X.httpGet (urlStr rimid) with
    | .error err =>
      ⟨trace ++ [Event.logFatalf "HTTP GET error: %v" [Arg.err err]], .exited 1, none⟩
    | .ok resp =>
      if resp.StatusCode ≠ 200 then
        ⟨trace ++ [Event.ioReadAll, Event.logFatalf
            "Error response from NVIDIA RIM service: %d %s\nResponse body: %s"
            [Arg.int resp.StatusCode, Arg.str resp.Status, Arg.bytes resp.readAll.1]],
          .exited 1, none⟩
      else
        match resp.readAll with
        | (_, some err) =>
          ⟨trace ++ [Event.ioReadAll,
              Event.logFatalf "Reading response error: %v" [Arg.err err]], .exited 1, none⟩
        | (body, none) =>
          decodeEnvelope X
            (trace ++ [Event.ioReadAll, Event.logPrintf
              "Received successful response from NVIDIA RIM service (%d bytes)"
              [Arg.int body.length]])
            body

/-- The program, lines 34-117, started with the command line `args`
(`os.Args[1:]`).  When `flag.Parse` ends the process, nothing of lines 39-117
runs. -/
def main {T : Type} (X : Deps T) (args : List String) : Run T :=
  match X.flagParse args with
  | .exits code => ⟨[Event.flagOutput], .exited code, none⟩
  | .parsed rimid => mainFrom X rimid

/-! ## Vocabulary of the specification -/

/-- A tag is CoMID-tagged when its first three bytes are `corim.ComidTag` (a
constant of three bytes in the library, so that a shorter tag is not). -/
def isComidTagged {T : Type} (X : Deps T) (t : Bytes) : Bool :=
  decide (t.take 3 = X.ComidTag)

/-- The CBOR decoder rejects the payload of tag `t`. -/
def undecodable {T : Type} (X : Deps T) (t : Bytes) : Bool :=
  match X.comidFromCBOR (t.drop 3) with
  | .ok _ => false
  | .error _ => true

/-- The reference-value triples of the CoMID in the payload of tag `t` (none
when the payload does not decode). -/
def referenceValues {T : Type} (X : Deps T) (t : Bytes) : List T :=
  match X.comidFromCBOR (t.drop 3) with
  | .ok values => values
  | .error _ => []

/-- Every tag of the list has its three type bytes (the shape the data model
gives a tag). -/
def WellFormedTags (tags : List Bytes) : Prop :=
  ∀ t ∈ tags, 3 ≤ t.length

/-- The steps that come after the format gate: base64 decoding, COSE
decoding, CoMID decoding and appending to the result set. -/
def Event.isDecodeStep {T : Type} : Event T → Bool
  | .base64DecodeString _ => true
  | .fromCOSE _ => true
  | .comidFromCBOR _ => true
  | .addReferenceValues _ => true
  | _ => false

/-- The event is an HTTP GET. -/
def Event.isHttpGet {T : Type} : Event T → Bool
  | .httpGet _ => true
  | _ => false

/-- The event is a call of the COSE decoder. -/
def Event.isFromCOSE {T : Type} : Event T → Bool
  | .fromCOSE _ => true
  | _ => false

/-- The event is the usage line of line 40. -/
def Event.isUsageLine {T : Type} : Event T → Bool
  | .fmtPrintf _ _ => true
  | _ => false

/-- The event is a call of the CoMID decoder. -/
def Event.isComidFromCBOR {T : Type} : Event T → Bool
  | .comidFromCBOR _ => true
  | _ => false

/-- The run that only prints the usage line (lines 40-41). -/
def usageRun {T : Type} (X : Deps T) : Run T :=
  ⟨[Event.fmtPrintf "Usage: %s -rimid=<rim_identifier>\n" [Arg.str X.Args0]], .exited 1, none⟩

/-- The four diagnostics of the decoding stages (lines 72, 78, 87, 105). -/
def decodeFatalFormats : List String :=
  ["Expected RIM to be formatted as CORIM, but the actual format is %s",
   "Failed to base64 decode the RIM byte string %s",
   "Failed to parse COSE: %v",
   "Failed to populate CoMID from CBOR: %v"]

/-- The trace of a run up to the point where the body has been read. -/
def fetched {T : Type} (rimid : String) (body : Bytes) : List (Event T) :=
  [Event.logPrintf "Requesting RIM file from: %s" [Arg.str (urlStr rimid)],
   Event.httpGet (urlStr rimid),
   Event.ioReadAll,
   Event.logPrintf "Received successful response from NVIDIA RIM service (%d bytes)"
     [Arg.int body.length]]

/-- The failures listed under "exit codes" in the specification, read off the
inputs in pipeline order, for a run in which `flag.Parse` returned with
identifier `rimid`: a missing `-rimid` argument, an HTTP request error, a
non-200 status, a body read failure, a `rim_format` other than `CORIM`, a base64
decode failure, a COSE decode failure, a CBOR decode failure of a CoMID-tagged
tag. -/
def listedFailureFrom {T : Type} (X : Deps T) (rimid : String) : Bool :=
  if rimid = "" then true
  else
    match X.httpGet (urlStr rimid) with
    | .error _ => true
    | .ok resp =>
      if resp.StatusCode ≠ 200 then true
      else
        match resp.readAll with
        | (_, some _) => true
        | (body, none) =>
          if (X.jsonUnmarshal body RimServiceResponse.zero).1.RimFormat ≠ "CORIM" then true
          else
            match X.base64DecodeString (X.jsonUnmarshal body RimServiceResponse.zero).1.Rim with
            | .error _ => true
            | .ok corimBytes =>
              match X.fromCOSE corimBytes with
              | .error _ => true
              | .ok tags => tags.any (fun t => isComidTagged X t && undecodable X t)

/-- The listed failures of the run on the command line `args`.  A command
line on which `flag.Parse` ends the process itself counts as none of them. -/
def listedFailure {T : Type} (X : Deps T) (args : List String) : Bool :=
  match X.flagParse args with
  | .exits _ => false
  | .parsed rimid => listedFailureFrom X rimid

/-- The four decode failures behind a body that was read: a `rim_format` other
than `CORIM`, a base64 decode failure, a COSE decode failure, a CBOR decode
failure of a CoMID-tagged tag. -/
def decodeFailure {T : Type} (X : Deps T) (body : Bytes) : Bool :=
  if (X.jsonUnmarshal body RimServiceResponse.zero).1.RimFormat ≠ "CORIM" then true
  else
    match X.base64DecodeString (X.jsonUnmarshal body RimServiceResponse.zero).1.Rim with
    | .error _ => true
    | .ok corimBytes =>
      match X.fromCOSE corimBytes with
      | .error _ => true
      | .ok tags => tags.any (fun t => isComidTagged X t && undecodable X t)

/-- The same packages, except that `json.Unmarshal` reports the error `e`
instead of its own; what it stores is unchanged. -/
def Deps.withUnmarshalError {T : Type} (X : Deps T)
    (e : Bytes → RimServiceResponse → Option String) : Deps T :=
  { X with jsonUnmarshal := fun body v => ((X.jsonUnmarshal body v).1, e body v) }

/-! ## Package `flag` -/

namespace Flag

/-- Split the text behind the dashes at the first `=` that is not its first
character: the flag name and, if there is a `=`, the value behind it. -/
def splitValue : List Char → List Char → List Char × Option (List Char)
  | seen, [] => (seen.reverse, none)
  | seen, c :: rest =>
    if c = '=' ∧ seen ≠ [] then (seen.reverse, some rest)
    else splitValue (c :: seen) rest

/-- The behaviour of `flag.Parse` on a flag set with the one string flag
`rimid` and error handling `ExitOnError`; `rimid` is the value so far.
Arguments are taken from the left.  An argument that is not of the form
`-x...`, and the argument `--`, end the flags.  `-name=value`, `-name value`,
`--name=value` and `--name value` set a flag.  `-rimid` as the last argument
has no value, and a name other than `rimid` is not defined: both end the
process with status 2, as does a name that begins with `-` or `=`.  The names
`h` and `help` end the process with status 0. -/
def Parse : List String → String → FlagParse
  | [], rimid => .parsed rimid
  | s :: rest, rimid =>
    match s.toList with
    | '-' :: c :: tl =>
      if c = '-' ∧ tl = [] then .parsed rimid
      else
        match (if c = '-' then tl else c :: tl) with
        | [] => .exits 2
        | n0 :: name =>
          if n0 = '-' ∨ n0 = '=' then .exits 2
          else
            match splitValue [] (n0 :: name) with
            | (key, value) =>
              if key = "rimid".toList then
                match value with
                | some v => Parse rest (String.mk v)
                | none =>
                  match rest with
                  | [] => .exits 2
                  | v :: rest2 => Parse rest2 v
              else if key = "help".toList ∨ key = "h".toList then .exits 0
              else .exits 2
    | _ => .parsed rimid

end Flag

/-! ## Package `encoding/base64` -/

namespace Base64

/-- The value of a character of the standard alphabet. -/
def value (c : Char) : Option Nat :=
  if 'A' ≤ c ∧ c ≤ 'Z' then some (c.toNat - 'A'.toNat)
  else if 'a' ≤ c ∧ c ≤ 'z' then some (c.toNat - 'a'.toNat + 26)
  else if '0' ≤ c ∧ c ≤ '9' then some (c.toNat - '0'.toNat + 52)
  else if c = '+' then some 62
  else if c = '/' then some 63
  else none

/-- Standard padded base64, four characters at a time: the decoded bytes, or
`none` when the text is not made of groups of four alphabet characters with
at most a last group that ends in `=` or `==`. -/
def quanta : List Char → Option Bytes
  | [] => some []
  | [a, b, '=', '='] =>
    match value a, value b with
    | some a, some b => some [(a * 4 + b / 16) % 256]
    | _, _ => none
  | [a, b, c, '='] =>
    match value a, value b, value c with
    | some a, some b, some c => some [(a * 4 + b / 16) % 256, (b * 16 + c / 4) % 256]
    | _, _, _ => none
  | a :: b :: c :: d :: rest =>
    match value a, value b, value c, value d, quanta rest with
    | some a, some b, some c, some d, some out =>
      some ((a * 4 + b / 16) % 256 :: (b * 16 + c / 4) % 256 :: (c * 64 + d) % 256 :: out)
    | _, _, _, _, _ => none
  | _ => none

/-- The text is valid standard (padded) base64. -/
def isStd (s : String) : Bool :=
  (quanta s.toList).isSome

/-- The behaviour of `base64.StdEncoding.DecodeString`: carriage returns and
line feeds are ignored, what remains has to be standard padded base64.  (The
error of the package also names the offset of the first bad byte.) -/
def DecodeString (s : String) : Except String Bytes :=
  match quanta (s.toList.filter (fun c => c ≠ Char.ofNat 0x0d ∧ c ≠ Char.ofNat 0x0a)) with
  | some out => .ok out
  | none => .error "illegal base64 data"

end Base64

/-! ## Package `encoding/json` -/

namespace Json

/-- JSON white space: space, tab, carriage return, line feed. -/
def isSpace (c : Nat) : Bool :=
  c = 0x20 || c = 0x09 || c = 0x0d || c = 0x0a

/-- The input behind its leading white space. -/
def skipSpace : Bytes → Bytes
  | [] => []
  | c :: rest => if isSpace c then skipSpace rest else c :: rest

/-- A decimal digit. -/
def isDigit (c : Nat) : Bool :=
  0x30 ≤ c && c ≤ 0x39

/-- The input behind its leading digits. -/
def skipDigits : Bytes → Bytes
  | [] => []
  | c :: rest => if isDigit c then skipDigits rest else c :: rest

/-- The value of a hexadecimal digit. -/
def hexDigit (c : Nat) : Option Nat :=
  if 0x30 ≤ c ∧ c ≤ 0x39 then some (c - 0x30)
  else if 0x61 ≤ c ∧ c ≤ 0x66 then some (c - 0x61 + 10)
  else if 0x41 ≤ c ∧ c ≤ 0x46 then some (c - 0x41 + 10)
  else none

/-- The value of an escape of the form backslash, `u`, four hexadecimal digits
at the head of the input. -/
def getu4 : Bytes → Option Nat
  | 0x5c :: 0x75 :: a :: b :: c :: d :: _ =>
    match hexDigit a, hexDigit b, hexDigit c, hexDigit d with
    | some a, some b, some c, some d => some (a * 4096 + b * 256 + c * 16 + d)
    | _, _, _, _ => none
  | _ => none

/-- A continuation byte of UTF-8. -/
def isCont (c : Nat) : Bool :=
  0x80 ≤ c && c ≤ 0xbf

/-- The behaviour of `utf8.DecodeRune`: the code point at the head of the input
and its width; a byte sequence that is not UTF-8 is U+FFFD of width 1. -/
def decodeRune : Bytes → Nat × Nat
  | [] => (0xfffd, 0)
  | b0 :: rest =>
    if b0 < 0x80 then (b0, 1)
    else if 0xc2 ≤ b0 ∧ b0 ≤ 0xdf then
      match rest with
      | b1 :: _ => if isCont b1 then ((b0 - 0xc0) * 64 + (b1 - 0x80), 2) else (0xfffd, 1)
      | _ => (0xfffd, 1)
    else if 0xe0 ≤ b0 ∧ b0 ≤ 0xef then
      match rest with
      | b1 :: b2 :: _ =>
        if (if b0 = 0xe0 then 0xa0 else 0x80) ≤ b1 ∧ b1 ≤ (if b0 = 0xed then 0x9f else 0xbf)
            ∧ isCont b2 then
          ((b0 - 0xe0) * 4096 + (b1 - 0x80) * 64 + (b2 - 0x80), 3)
        else (0xfffd, 1)
      | _ => (0xfffd, 1)
    else if 0xf0 ≤ b0 ∧ b0 ≤ 0xf4 then
      match rest with
      | b1 :: b2 :: b3 :: _ =>
        if (if b0 = 0xf0 then 0x90 else 0x80) ≤ b1 ∧ b1 ≤ (if b0 = 0xf4 then 0x8f else 0xbf)
            ∧ isCont b2 ∧ isCont b3 then
          ((b0 - 0xf0) * 262144 + (b1 - 0x80) * 4096 + (b2 - 0x80) * 64 + (b3 - 0x80), 4)
        else (0xfffd, 1)
      | _ => (0xfffd, 1)
    else (0xfffd, 1)

/-- The character that a one-letter escape stands for. -/
def escape (c : Nat) : Option Char :=
  if c = 0x22 then some (Char.ofNat 0x22)
  else if c = 0x5c then some (Char.ofNat 0x5c)
  else if c = 0x2f then some (Char.ofNat 0x2f)
  else if c = 0x62 then some (Char.ofNat 0x08)
  else if c = 0x66 then some (Char.ofNat 0x0c)
  else if c = 0x6e then some (Char.ofNat 0x0a)
  else if c = 0x72 then some (Char.ofNat 0x0d)
  else if c = 0x74 then some (Char.ofNat 0x09)
  else none

/-- A string literal, read from behind its opening quote: the decoded string
and the input behind the closing quote.  A control character and a malformed
escape make the literal invalid.  A surrogate escape that is not the first
half of a pair, and bytes that are not UTF-8, decode to U+FFFD.  `fuel` bounds
the number of steps; the length of the input plus one is enough. -/
def unquote : Nat → Bytes → List Char → Option (String × Bytes)
  | 0, _, _ => none
  | fuel + 1, input, acc =>
    match input with
    | [] => none
    | 0x22 :: rest => some (String.mk acc.reverse, rest)
    | [0x5c] => none
    | 0x5c :: e :: rest =>
      if e = 0x75 then
        match getu4 input with
        | none => none
        | some rr =>
          if 0xd800 ≤ rr ∧ rr < 0xe000 then
            match getu4 (input.drop 6) with
            | some rr1 =>
              if rr < 0xdc00 ∧ 0xdc00 ≤ rr1 ∧ rr1 < 0xe000 then
                unquote fuel (input.drop 12)
                  (Char.ofNat ((rr - 0xd800) * 1024 + (rr1 - 0xdc00) + 0x10000) :: acc)
              else unquote fuel (input.drop 6) (Char.ofNat 0xfffd :: acc)
            | none => unquote fuel (input.drop 6) (Char.ofNat 0xfffd :: acc)
          else unquote fuel (input.drop 6) (Char.ofNat rr :: acc)
      else
        match escape e with
        | some c => unquote fuel rest (c :: acc)
        | none => none
    | c :: rest =>
      if c < 0x20 then none
      else if c < 0x80 then unquote fuel rest (Char.ofNat c :: acc)
      else
        unquote fuel (input.drop (decodeRune input).2)
          (Char.ofNat (decodeRune input).1 :: acc)

/-- The exponent of a number, if there is one: the input behind it. -/
def skipExponent : Bytes → Option Bytes
  | [] => some []
  | c :: rest =>
    if c = 0x65 ∨ c = 0x45 then
      match (match rest with
        | [] => []
        | s :: r => if s = 0x2b ∨ s = 0x2d then r else s :: r) with
      | [] => none
      | d :: r => if isDigit d then some (skipDigits r) else none
    else some (c :: rest)

/-- The fraction and the exponent of a number, if there are any: the input
behind them. -/
def skipFraction : Bytes → Option Bytes
  | [0x2e] => none
  | 0x2e :: d :: rest => if isDigit d then skipExponent (skipDigits rest) else none
  | input => skipExponent input

/-- A number literal at the head of the input: the input behind it. -/
def skipNumber (input : Bytes) : Option Bytes :=
  match (match input with
    | 0x2d :: r => r
    | r => r) with
  | [] => none
  | d :: rest =>
    if d = 0x30 then skipFraction rest
    else if 0x31 ≤ d ∧ d ≤ 0x39 then skipFraction (skipDigits rest)
    else none

/-- What follows the first element of an array: a comma and an element, any
number of times, then the closing bracket.  `fuel` bounds the number of
elements. -/
def skipElements (skipValue : Bytes → Option Bytes) : Nat → Bytes → Option Bytes
  | 0, _ => none
  | fuel + 1, input =>
    match skipSpace input with
    | 0x5d :: rest => some rest
    | 0x2c :: rest =>
      match skipValue (skipSpace rest) with
      | some rest => skipElements skipValue fuel rest
      | none => none
    | _ => none

/-- One member of an object, a string literal, a colon and a value: the input
behind it. -/
def skipMember (skipValue : Bytes → Option Bytes) (input : Bytes) : Option Bytes :=
  match input with
  | 0x22 :: rest =>
    match unquote rest.length.succ rest [] with
    | some (_, rest) =>
      match skipSpace rest with
      | 0x3a :: rest => skipValue (skipSpace rest)
      | _ => none
    | none => none
  | _ => none

/-- What follows the first member of an object: a comma and a member, any
number of times, then the closing brace.  `fuel` bounds the number of
members. -/
def skipMembers (skipValue : Bytes → Option Bytes) : Nat → Bytes → Option Bytes
  | 0, _ => none
  | fuel + 1, input =>
    match skipSpace input with
    | 0x7d :: rest => some rest
    | 0x2c :: rest =>
      match skipMember skipValue (skipSpace rest) with
      | some rest => skipMembers skipValue fuel rest
      | none => none
    | _ => none

/-- A value at the head of the input (no white space in front): the input
behind it, or `none` when there is no valid value.  `depth` is the number of
arrays and objects that may still be opened one inside the other. -/
def skipValue : Nat → Bytes → Option Bytes
  | _, 0x22 :: rest => (unquote rest.length.succ rest []).map (fun r => r.2)
  | _, 0x74 :: 0x72 :: 0x75 :: 0x65 :: rest => some rest
  | _, 0x66 :: 0x61 :: 0x6c :: 0x73 :: 0x65 :: rest => some rest
  | _, 0x6e :: 0x75 :: 0x6c :: 0x6c :: rest => some rest
  | 0, 0x5b :: _ => none
  | 0, 0x7b :: _ => none
  | depth + 1, 0x5b :: rest =>
    match skipSpace rest with
    | 0x5d :: rest => some rest
    | first =>
      match skipValue depth first with
      | some rest => skipElements (skipValue depth) rest.length.succ rest
      | none => none
  | depth + 1, 0x7b :: rest =>
    match skipSpace rest with
    | 0x7d :: rest => some rest
    | first =>
      match skipMember (skipValue depth) first with
      | some rest => skipMembers (skipValue depth) rest.length.succ rest
      | none => none
  | _, input => skipNumber input

/-- The deepest nesting of arrays and objects that the package accepts. -/
def maxNestingDepth : Nat := 10000

/-- The value of a member of the top-level object, as far as a string field
can take it: a string, `null`, or any other value. -/
inductive Member where
  | string (s : String)
  | null
  | other
deriving DecidableEq, Repr

/-- The value of the member is a string. -/
def Member.isString : Member → Bool
  | .string _ => true
  | _ => false

/-- One member of the top-level object: its name, its value and the input
behind it. -/
def readMember (input : Bytes) : Option ((String × Member) × Bytes) :=
  match input with
  | 0x22 :: rest =>
    match unquote rest.length.succ rest [] with
    | some (key, rest) =>
      match skipSpace rest with
      | 0x3a :: rest =>
        match skipSpace rest with
        | 0x22 :: rest =>
          (unquote rest.length.succ rest []).map (fun r => ((key, Member.string r.1), r.2))
        | 0x6e :: 0x75 :: 0x6c :: 0x6c :: rest => some ((key, Member.null), rest)
        | value =>
          (skipValue (maxNestingDepth - 1) value).map (fun r => ((key, Member.other), r))
      | _ => none
    | none => none
  | _ => none

/-- What follows the first member of the top-level object. -/
def readMembers : Nat → Bytes → Option (List (String × Member) × Bytes)
  | 0, _ => none
  | fuel + 1, input =>
    match skipSpace input with
    | 0x7d :: rest => some ([], rest)
    | 0x2c :: rest =>
      match readMember (skipSpace rest) with
      | some (m, rest) => (readMembers fuel rest).map (fun r => (m :: r.1, r.2))
      | none => none
    | _ => none

/-- A JSON text, as far as a struct of string fields can take it: an object
with its members in order, `null`, or any other value. -/
inductive Text where
  | object (members : List (String × Member))
  | null
  | other
deriving DecidableEq, Repr

/-- The value at the head of the input, read as a `Text`, and the input behind
it. -/
def readValue (input : Bytes) : Option (Text × Bytes) :=
  match input with
  | 0x7b :: rest =>
    match skipSpace rest with
    | 0x7d :: rest => some (Text.object [], rest)
    | first =>
      match readMember first with
      | some (m, rest) =>
        (readMembers rest.length.succ rest).map (fun r => (Text.object (m :: r.1), r.2))
      | none => none
  | 0x6e :: 0x75 :: 0x6c :: 0x6c :: rest => some (Text.null, rest)
  | value => (skipValue maxNestingDepth value).map (fun r => (Text.other, r))

/-- The body as a JSON text: white space, one value, white space.  `none`: the
body is not syntactically valid JSON. -/
def parse (body : Bytes) : Option Text :=
  match readValue (skipSpace body) with
  | some (text, rest) => if skipSpace rest = [] then some text else none
  | none => none

/-- The case folding of one character of a member name: an ASCII letter goes
to upper case, the Kelvin sign to `K` and the long s to `S` (no other
character outside ASCII folds to an ASCII character). -/
def foldRune (c : Char) : Char :=
  if 'a' ≤ c ∧ c ≤ 'z' then Char.ofNat (c.toNat - 32)
  else if c = Char.ofNat 0x212a then 'K'
  else if c = Char.ofNat 0x17f then 'S'
  else c

/-- The case folding of a member name. -/
def foldName (name : String) : List Char :=
  name.toList.map foldRune

/-- The member name `key` selects the field whose JSON name is `name`: the two
are equal, or equal after case folding. -/
def selects (key name : String) : Bool :=
  key = name || foldName key = foldName name

/-- The struct after the string `s` is stored in the field that `key` selects;
unchanged when `key` selects no field. -/
def setField (v : RimServiceResponse) (key s : String) : RimServiceResponse :=
  if selects key "id" then { v with Id := s }
  else if selects key "rim" then { v with Rim := s }
  else if selects key "sha256" then { v with Sha256 := s }
  else if selects key "last_updated" then { v with LastUpdated := s }
  else if selects key "rim_format" then { v with RimFormat := s }
  else if selects key "request_id" then { v with RequestId := s }
  else v

/-- The member name selects one of the six fields. -/
def isField (key : String) : Bool :=
  selects key "id" || selects key "rim" || selects key "sha256" ||
  selects key "last_updated" || selects key "rim_format" || selects key "request_id"

/-- One member of the object is stored.  A string goes into the field its
name selects; `null` changes nothing; any other value for a field is a type
error, which leaves the field as it is and is reported at the end unless an
earlier one is; a member that selects no field is skipped. -/
def store (state : RimServiceResponse × Option String) (m : String × Member) :
    RimServiceResponse × Option String :=
  match m.2 with
  | .string s => (setField state.1 m.1 s, state.2)
  | .null => state
  | .other =>
    if isField m.1 then
      (state.1, state.2.orElse (fun _ =>
        some ("json: cannot unmarshal into Go struct field RimServiceResponse." ++ m.1
          ++ " of type string")))
    else state

/-- The behaviour of `json.Unmarshal(body, &v)` for the struct
`RimServiceResponse`: the struct afterwards and the error returned.  A body
that is not valid JSON stores nothing.  `null` stores nothing and is no
error.  A value that is not an object stores nothing and is a type error.
The members of an object are stored in order.  (The texts of the errors are
not those of the package; `main` discards them.) -/
def Unmarshal (body : Bytes) (v : RimServiceResponse) : RimServiceResponse × Option String :=
  match parse body with
  | none => (v, some "json: syntax error")
  | some .null => (v, none)
  | some .other =>
    (v, some "json: cannot unmarshal into Go value of type main.RimServiceResponse")
  | some (.object members) => members.foldl store (v, none)

end Json

/-! ## A concrete service, for evaluating the program -/

/-- One behaviour of the packages.  The command line is parsed by `Flag.Parse`;
every request is answered with status 200 and a body of two bytes; the JSON
decoder stores `envelope` and reports `jsonErr`; base64 is decoded by
`Base64.DecodeString`; the COSE decoder yields the tag list `tags`; the tag
constant is the encoding of CBOR tag 506; the CoMID decoder rejects the empty
payload and otherwise reads the bytes after the first as triples. -/
def lab (tags : List Bytes) (envelope : RimServiceResponse) (jsonErr : Option String) :
    Deps Nat where
  Args0 := "nvidia-rim-to-coserv"
  flagParse := fun args => Flag.Parse args ""
  httpGet := fun _ => .ok ⟨200, "200 OK", ([123, 125], none)⟩
  jsonUnmarshal := fun _ _ => (envelope, jsonErr)
  base64DecodeString := Base64.DecodeString
  fromCOSE := fun _ => .ok tags
  ComidTag := [0xd9, 0x01, 0xfa]
  comidFromCBOR := fun data => if data = [] then .error "EOF" else .ok data.tail

/-- An envelope that passes the format gate and carries decodable base64. -/
def corimEnvelope : RimServiceResponse :=
  ⟨"NV_GPU_DRIVER_GH100_535.86.09", "AQID", "", "", "CORIM", ""⟩

/-- An envelope with a lower-case format and a `rim` that is not base64. -/
def lowerCaseEnvelope : RimServiceResponse :=
  ⟨"NV_GPU_DRIVER_GH100_535.86.09", "!!!", "", "", "corim", ""⟩

/-- An envelope that passes the format gate and carries a `rim` that is not
base64. -/
def badRimEnvelope : RimServiceResponse :=
  ⟨"NV_GPU_DRIVER_GH100_535.86.09", "!!!", "", "", "CORIM", ""⟩

/-- An envelope that passes the format gate and carries `AQID` broken by a line
feed. -/
def lineBreakEnvelope : RimServiceResponse :=
  ⟨"NV_GPU_DRIVER_GH100_535.86.09", "AQ\nID", "", "", "CORIM", ""⟩

/-- The bytes of a text of ASCII characters. -/
def bytesOf (text : String) : Bytes :=
  text.toList.map Char.toNat

/-- The same behaviour of the packages as `lab`, except that the response body
is `body` and the JSON decoder is `Json.Unmarshal`. -/
def service (tags : List Bytes) (body : Bytes) : Deps Nat where
  Args0 := "nvidia-rim-to-coserv"
  flagParse := fun args => Flag.Parse args ""
  httpGet := fun _ => .ok ⟨200, "200 OK", (body, none)⟩
  jsonUnmarshal := Json.Unmarshal
  base64DecodeString := Base64.DecodeString
  fromCOSE := fun _ => .ok tags
  ComidTag := [0xd9, 0x01, 0xfa]
  comidFromCBOR := fun data => if data = [] then .error "EOF" else .ok data.tail

/-- A body whose only format member is spelled in upper case. -/
def upperCaseBody : Bytes :=
  bytesOf "\x7b\"RIM_FORMAT\":\"CORIM\",\"Rim\":\"AQID\"\x7d"

/-- A body with a usable envelope and a number where a string is expected. -/
def typeErrorBody : Bytes :=
  bytesOf "\x7b\"rim_format\":\"CORIM\",\"rim\":\"AQID\",\"request_id\":5\x7d"

/-- A body that is an object without any format member. -/
def noFormatBody : Bytes :=
  bytesOf "\x7b\"id\":\"GH100\",\"rim\":\"AQID\",\"rim_format\":null\x7d"

/-- A body that is not JSON: an error page. -/
def notJsonBody : Bytes :=
  bytesOf "<html>Service Unavailable</html>"

/-- A CoMID tag whose CoMID holds the two triples 7 and 8. -/
def comidTag78 : Bytes := [0xd9, 0x01, 0xfa, 0xa0, 7, 8]

/-- A CoMID tag whose CoMID holds the one triple 7. -/
def comidTag7 : Bytes := [0xd9, 0x01, 0xfa, 0xa0, 7]

/-- A CoSWID tag (CBOR tag 505): three type bytes that are not the CoMID ones,
and a payload. -/
def coswidTag : Bytes := [0xd9, 0x01, 0xf9, 0xa0]

/-- A tag of one byte. -/
def oneByteTag : Bytes := [0x01]

/-- A tag of two bytes, the first two of the CoMID type bytes. -/
def twoByteTag : Bytes := [0xd9, 0x01]

/-- The command line used in the evaluations below. -/
def sampleFlag : List String := ["-rimid=NV_GPU_DRIVER_GH100_535.86.09"]

/-- The response of the concrete service. -/
def labResponse : Response := ⟨200, "200 OK", ([123, 125], none)⟩

/-! ## The inner loop -/

/-- The inner loop appends the triples of a CoMID, in order, behind what the
result set already holds. -/
theorem addTriples_result {T : Type} (values coservResult : List T) :
    (addTriples values coservResult).2 = coservResult ++ values := by
  induction values generalizing coservResult with
  | nil => simp [addTriples]
  | cons triple rest ih => simp [addTriples, AddReferenceValues, ih]

/-- The inner loop calls nothing but the logger and `AddReferenceValues`. -/
theorem addTriples_trace {T : Type} (values coservResult : List T) :
    (addTriples values coservResult).1 = values.flatMap (fun triple =>
      [Event.logPrintf "Adding a reference value triple to the result." [],
       Event.addReferenceValues triple]) := by
  induction values generalizing coservResult with
  | nil => simp [addTriples]
  | cons triple rest ih => simp [addTriples, ih]

/-! ## The tag loop -/

/-- A tag with fewer than three bytes cannot be sliced. -/
theorem sliceTag_short (t : Bytes) (h : t.length < 3) : sliceTag t = none := by
  simp [sliceTag]; omega

/-- A tag with at least three bytes is sliced into its first three bytes and
the rest. -/
theorem sliceTag_long (t : Bytes) (h : 3 ≤ t.length) :
    sliceTag t = some (t.take 3, t.drop 3) := by
  simp [sliceTag, h]

/-- One step of the loop on a tag that is not CoMID-tagged and has its three
type bytes: nothing happens. -/
theorem walkTags_skip {T : Type} (X : Deps T) (t : Bytes) (rest : List Bytes)
    (coservResult : List T) (hlen : 3 ≤ t.length) (hskip : isComidTagged X t = false) :
    walkTags X (t :: rest) coservResult = walkTags X rest coservResult := by
  have h : ¬ (t.take 3 = X.ComidTag) := by simpa [isComidTagged] using hskip
  simp [walkTags, sliceTag_long t hlen, h]

/-- The loop panics at the first tag when that tag has fewer than three bytes. -/
theorem walkTags_short {T : Type} (X : Deps T) (t : Bytes) (rest : List Bytes)
    (coservResult : List T) (hlen : t.length < 3) :
    walkTags X (t :: rest) coservResult = ⟨[], .panicked, coservResult⟩ := by
  simp [walkTags, sliceTag_short t hlen]

/-- On a well-formed tag list, deleting the tags that are not CoMID-tagged
changes nothing: same calls, same end, same result set. -/
theorem walkTags_filter {T : Type} (X : Deps T) (tags : List Bytes) (coservResult : List T)
    (hwf : WellFormedTags tags) :
    walkTags X tags coservResult
      = walkTags X (tags.filter (isComidTagged X)) coservResult := by
  induction tags generalizing coservResult with
  | nil => rfl
  | cons t rest ih =>
    have hlen : 3 ≤ t.length := hwf t (List.mem_cons_self _ _)
    have hrest : WellFormedTags rest := fun u hu => hwf u (List.mem_cons_of_mem _ hu)
    by_cases hc : isComidTagged X t = true
    · have heq : t.take 3 = X.ComidTag := by simpa [isComidTagged] using hc
      rw [List.filter_cons_of_pos hc]
      simp only [walkTags, sliceTag_long t hlen, heq, if_true]
      cases hd : X.comidFromCBOR (t.drop 3) with
      | error err => rfl
      | ok values => simp only [ih _ hrest]
    · have hc2 : isComidTagged X t = false := by simpa using hc
      rw [List.filter_cons_of_neg hc, walkTags_skip X t rest coservResult hlen hc2]
      exact ih _ hrest

/-- On a well-formed tag list whose CoMID-tagged tags all decode, the loop runs
to its end and the result set has grown by the triples of those CoMIDs, in tag
order and then in within-CoMID order. -/
theorem walkTags_transplants {T : Type} (X : Deps T) (tags : List Bytes)
    (coservResult : List T) (hwf : WellFormedTags tags)
    (hok : ∀ t ∈ tags, isComidTagged X t = true → undecodable X t = false) :
    (walkTags X tags coservResult).outcome = .returned ∧
    (walkTags X tags coservResult).coservResult
      = coservResult ++ (tags.filter (isComidTagged X)).flatMap (referenceValues X) := by
  induction tags generalizing coservResult with
  | nil => simp [walkTags]
  | cons t rest ih =>
    have hlen : 3 ≤ t.length := hwf t (List.mem_cons_self _ _)
    have hrest : WellFormedTags rest := fun u hu => hwf u (List.mem_cons_of_mem _ hu)
    have hokrest : ∀ u ∈ rest, isComidTagged X u = true → undecodable X u = false :=
      fun u hu => hok u (List.mem_cons_of_mem _ hu)
    by_cases hc : isComidTagged X t = true
    · have heq : t.take 3 = X.ComidTag := by simpa [isComidTagged] using hc
      have hdec := hok t (List.mem_cons_self _ _) hc
      rw [List.filter_cons_of_pos hc]
      cases hd : X.comidFromCBOR (t.drop 3) with
      | error err => simp [undecodable, hd] at hdec
      | ok values =>
        have hv : referenceValues X t = values := by simp [referenceValues, hd]
        simp only [walkTags, sliceTag_long t hlen, heq, if_true, hd]
        obtain ⟨h1, h2⟩ := ih (addTriples values coservResult).2 hrest hokrest
        refine ⟨h1, ?_⟩
        rw [h2, addTriples_result, List.flatMap_cons, hv, List.append_assoc]
    · have hc2 : isComidTagged X t = false := by simpa using hc
      rw [List.filter_cons_of_neg hc, walkTags_skip X t rest coservResult hlen hc2]
      exact ih _ hrest hokrest

/-- The count form of `walkTags_transplants`: with `N` CoMID-tagged tags of `M`
triples each, the result set grows by `N * M` triples. -/
theorem walkTags_count {T : Type} (X : Deps T) (tags : List Bytes) (coservResult : List T)
    (M : Nat) (hwf : WellFormedTags tags)
    (hok : ∀ t ∈ tags, isComidTagged X t = true → undecodable X t = false)
    (hM : ∀ t ∈ tags, isComidTagged X t = true → (referenceValues X t).length = M) :
    (walkTags X tags coservResult).coservResult.length
      = coservResult.length + (tags.filter (isComidTagged X)).length * M := by
  rw [(walkTags_transplants X tags coservResult hwf hok).2, List.length_append]
  congr 1
  induction tags with
  | nil => simp
  | cons t rest ih =>
    have hwfrest : WellFormedTags rest := fun u hu => hwf u (List.mem_cons_of_mem _ hu)
    have hokrest : ∀ u ∈ rest, isComidTagged X u = true → undecodable X u = false :=
      fun u hu => hok u (List.mem_cons_of_mem _ hu)
    have hMrest : ∀ u ∈ rest, isComidTagged X u = true → (referenceValues X u).length = M :=
      fun u hu => hM u (List.mem_cons_of_mem _ hu)
    by_cases hc : isComidTagged X t = true
    · rw [List.filter_cons_of_pos hc, List.flatMap_cons, List.length_append,
        ih hwfrest hokrest hMrest, hM t (List.mem_cons_self _ _) hc, List.length_cons]
      ring
    · rw [List.filter_cons_of_neg hc]
      exact ih hwfrest hokrest hMrest

/-- On a well-formed tag list without CoMID-tagged tags the loop does nothing
and runs to its end. -/
theorem walkTags_no_comid {T : Type} (X : Deps T) (tags : List Bytes) (coservResult : List T)
    (hwf : WellFormedTags tags) (hnone : ∀ t ∈ tags, isComidTagged X t = false) :
    walkTags X tags coservResult = ⟨[], .returned, coservResult⟩ := by
  rw [walkTags_filter X tags coservResult hwf]
  have hfil : tags.filter (isComidTagged X) = [] := by
    simpa [List.filter_eq_nil_iff] using hnone
  rw [hfil]
  rfl

/-- The CoMID decoder is only ever called on the payload of a CoMID-tagged
tag of the list. -/
theorem walkTags_decoder_calls {T : Type} (X : Deps T) (tags : List Bytes)
    (coservResult : List T) (data : Bytes)
    (h : Event.comidFromCBOR data ∈ (walkTags X tags coservResult).trace) :
    ∃ t ∈ tags, isComidTagged X t = true ∧ data = t.drop 3 := by
  induction tags generalizing coservResult with
  | nil => simp [walkTags] at h
  | cons t rest ih =>
    by_cases hlen : 3 ≤ t.length
    · by_cases hc : isComidTagged X t = true
      · have heq : t.take 3 = X.ComidTag := by simpa [isComidTagged] using hc
        simp only [walkTags, sliceTag_long t hlen, heq, if_true] at h
        cases hd : X.comidFromCBOR (t.drop 3) with
        | error err =>
          rw [hd] at h
          simp at h
          exact ⟨t, List.mem_cons_self _ _, hc, h⟩
        | ok values =>
          rw [hd] at h
          simp only [List.mem_append, List.mem_cons, addTriples_trace, List.mem_flatMap] at h
          rcases h with (h | h) | h
          · rcases h with h | h | h
            · cases h
            · cases h
              exact ⟨t, List.mem_cons_self _ _, hc, rfl⟩
            · cases h
          · obtain ⟨_, _, h⟩ := h
            simp at h
          · obtain ⟨u, hu, hcu, hdu⟩ := ih _ h
            exact ⟨u, List.mem_cons_of_mem _ hu, hcu, hdu⟩
      · have hc2 : isComidTagged X t = false := by simpa using hc
        rw [walkTags_skip X t rest coservResult hlen hc2] at h
        obtain ⟨u, hu, hcu, hdu⟩ := ih _ h
        exact ⟨u, List.mem_cons_of_mem _ hu, hcu, hdu⟩
    · rw [walkTags_short X t rest coservResult (by omega)] at h
      simp at h

/-- The loop ends in one of three ways: it runs to its end, it stops at the
fatal CBOR diagnostic with status 1, or it panics. -/
theorem walkTags_outcome_cases {T : Type} (X : Deps T) (tags : List Bytes)
    (coservResult : List T) :
    (walkTags X tags coservResult).outcome = .returned ∨
    (walkTags X tags coservResult).outcome = .exited 1 ∨
    (walkTags X tags coservResult).outcome = .panicked := by
  induction tags generalizing coservResult with
  | nil => simp [walkTags]
  | cons t rest ih =>
    by_cases hlen : 3 ≤ t.length
    · by_cases hc : isComidTagged X t = true
      · have heq : t.take 3 = X.ComidTag := by simpa [isComidTagged] using hc
        simp only [walkTags, sliceTag_long t hlen, heq, if_true]
        cases hd : X.comidFromCBOR (t.drop 3) with
        | error err => simp
        | ok values => exact ih _
      · have hc2 : isComidTagged X t = false := by simpa using hc
        rw [walkTags_skip X t rest coservResult hlen hc2]
        exact ih _
    · rw [walkTags_short X t rest coservResult (by omega)]
      simp

/-- On a well-formed tag list the loop runs to its end exactly when no
CoMID-tagged tag has an undecodable payload; otherwise it stops with status 1. -/
theorem walkTags_outcome_wf {T : Type} (X : Deps T) (tags : List Bytes)
    (coservResult : List T) (hwf : WellFormedTags tags) :
    (walkTags X tags coservResult).outcome
      = if tags.any (fun t => isComidTagged X t && undecodable X t) then .exited 1
        else .returned := by
  induction tags generalizing coservResult with
  | nil => simp [walkTags]
  | cons t rest ih =>
    have hlen : 3 ≤ t.length := hwf t (List.mem_cons_self _ _)
    have hrest : WellFormedTags rest := fun u hu => hwf u (List.mem_cons_of_mem _ hu)
    by_cases hc : isComidTagged X t = true
    · have heq : t.take 3 = X.ComidTag := by simpa [isComidTagged] using hc
      simp only [walkTags, sliceTag_long t hlen, heq, if_true]
      cases hd : X.comidFromCBOR (t.drop 3) with
      | error err => simp [List.any_cons, hc, undecodable, hd]
      | ok values =>
        simp only [ih _ hrest, List.any_cons, hc, undecodable, hd]
        simp
    · have hc2 : isComidTagged X t = false := by simpa using hc
      rw [walkTags_skip X t rest coservResult hlen hc2, ih _ hrest]
      simp [List.any_cons, hc2]

/-- Whatever the tag list, the loop does not run to its end when a CoMID-tagged
tag has an undecodable payload. -/
theorem walkTags_undecodable {T : Type} (X : Deps T) (tags : List Bytes)
    (coservResult : List T)
    (hbad : tags.any (fun t => isComidTagged X t && undecodable X t) = true) :
    (walkTags X tags coservResult).outcome ≠ .returned := by
  induction tags generalizing coservResult with
  | nil => simp at hbad
  | cons t rest ih =>
    by_cases hlen : 3 ≤ t.length
    · by_cases hc : isComidTagged X t = true
      · have heq : t.take 3 = X.ComidTag := by simpa [isComidTagged] using hc
        simp only [walkTags, sliceTag_long t hlen, heq, if_true]
        cases hd : X.comidFromCBOR (t.drop 3) with
        | error err => simp
        | ok values =>
          have : rest.any (fun t => isComidTagged X t && undecodable X t) = true := by
            simpa [List.any_cons, hc, undecodable, hd] using hbad
          exact ih _ this
      · have hc2 : isComidTagged X t = false := by simpa using hc
        rw [walkTags_skip X t rest coservResult hlen hc2]
        have : rest.any (fun t => isComidTagged X t && undecodable X t) = true := by
          simpa [List.any_cons, hc2] using hbad
        exact ih _ this
    · rw [walkTags_short X t rest coservResult (by omega)]
      simp

/-! ## The pipeline in front of the tag loop -/

/-- Without an identifier the program only prints the usage line and exits
with status 1. -/
theorem mainFrom_usage {T : Type} (X : Deps T) (rimid : String)
    (hid : rimid = "") : mainFrom X rimid = usageRun X := by
  simp [mainFrom, usageRun, hid]

/-- With an identifier, a 200 response and a body that was read, the program
reaches the envelope decoder after one GET and one read. -/
theorem mainFrom_fetched {T : Type} (X : Deps T) (rimid : String) (resp : Response)
    (body : Bytes) (hid : rimid ≠ "")
    (hget : X.httpGet (urlStr (rimid)) = .ok resp)
    (hstatus : resp.StatusCode = 200) (hread : resp.readAll = (body, none)) :
    mainFrom X rimid = decodeEnvelope X (fetched (rimid) body) body := by
  simp [mainFrom, hid, hget, hstatus, hread, fetched]

/-- The format gate: an envelope whose format is not `CORIM` ends the run at
the format diagnostic. -/
theorem decodeEnvelope_format {T : Type} (X : Deps T) (trace : List (Event T)) (body : Bytes)
    (hfmt : (X.jsonUnmarshal body RimServiceResponse.zero).1.RimFormat ≠ "CORIM") :
    decodeEnvelope X trace body
      = ⟨trace ++ [Event.jsonUnmarshal body, Event.logFatalf
          "Expected RIM to be formatted as CORIM, but the actual format is %s"
          [Arg.str (X.jsonUnmarshal body RimServiceResponse.zero).1.RimFormat]],
         .exited 1, none⟩ := by
  simp [decodeEnvelope, hfmt]

/-- The base64 gate: behind the format gate, a `rim` that does not decode ends
the run at the base64 diagnostic. -/
theorem decodeEnvelope_base64 {T : Type} (X : Deps T) (trace : List (Event T)) (body : Bytes)
    (err : String)
    (hfmt : (X.jsonUnmarshal body RimServiceResponse.zero).1.RimFormat = "CORIM")
    (hb64 : X.base64DecodeString (X.jsonUnmarshal body RimServiceResponse.zero).1.Rim
      = .error err) :
    decodeEnvelope X trace body
      = ⟨trace ++ [Event.jsonUnmarshal body,
          Event.base64DecodeString (X.jsonUnmarshal body RimServiceResponse.zero).1.Rim,
          Event.logFatalf "Failed to base64 decode the RIM byte string %s"
            [Arg.str (X.jsonUnmarshal body RimServiceResponse.zero).1.Rim]],
         .exited 1, none⟩ := by
  simp [decodeEnvelope, hfmt, hb64]

/-- Behind both gates the run continues with COSE decoding. -/
theorem decodeEnvelope_decoded {T : Type} (X : Deps T) (trace : List (Event T)) (body : Bytes)
    (corimBytes : Bytes)
    (hfmt : (X.jsonUnmarshal body RimServiceResponse.zero).1.RimFormat = "CORIM")
    (hb64 : X.base64DecodeString (X.jsonUnmarshal body RimServiceResponse.zero).1.Rim
      = .ok corimBytes) :
    decodeEnvelope X trace body
      = decodeAndWalk X (trace ++ [Event.jsonUnmarshal body,
          Event.base64DecodeString (X.jsonUnmarshal body RimServiceResponse.zero).1.Rim,
          Event.logPrintf "Decoded %d bytes of CoRIM data." [Arg.int corimBytes.length]])
        corimBytes := by
  simp [decodeEnvelope, hfmt, hb64]

/-- The tag loop uses two things of the packages only: the tag constant and the
CoMID decoder. -/
theorem walkTags_congr {T : Type} (X Y : Deps T) (hc : X.ComidTag = Y.ComidTag)
    (hd : X.comidFromCBOR = Y.comidFromCBOR) (tags : List Bytes) (coservResult : List T) :
    walkTags X tags coservResult = walkTags Y tags coservResult := by
  induction tags generalizing coservResult with
  | nil => rfl
  | cons t rest ih => simp only [walkTags, hc, hd, ih]

/-- The error that `json.Unmarshal` returns plays no part in the envelope
decoder. -/
theorem decodeEnvelope_withUnmarshalError {T : Type} (X : Deps T)
    (e : Bytes → RimServiceResponse → Option String) (trace : List (Event T)) (body : Bytes) :
    decodeEnvelope (X.withUnmarshalError e) trace body = decodeEnvelope X trace body := by
  have hd : ∀ tr corimBytes,
      decodeAndWalk (X.withUnmarshalError e) tr corimBytes = decodeAndWalk X tr corimBytes := by
    intro tr corimBytes
    simp only [decodeAndWalk, walkTags_congr (X.withUnmarshalError e) X rfl rfl]
    rfl
  simp only [decodeEnvelope, hd]
  rfl

/-- The error that `json.Unmarshal` returns plays no part in the run. -/
theorem mainFrom_withUnmarshalError {T : Type} (X : Deps T)
    (e : Bytes → RimServiceResponse → Option String) (rimid : String) :
    mainFrom (X.withUnmarshalError e) rimid = mainFrom X rimid := by
  simp only [mainFrom, decodeEnvelope_withUnmarshalError]
  rfl

/-! ## The exit status -/

/-- The exit status of the run in terms of the tag loop, once COSE decoding
has succeeded. -/
theorem decodeAndWalk_outcome {T : Type} (X : Deps T) (trace : List (Event T))
    (corimBytes : Bytes) (tags : List Bytes) (hcose : X.fromCOSE corimBytes = .ok tags) :
    (decodeAndWalk X trace corimBytes).outcome = (walkTags X tags NewResultSet).outcome := by
  simp [decodeAndWalk, hcose]

/-- A run that ends with status 0 met none of the listed failures. -/
theorem mainFrom_exit_zero {T : Type} (X : Deps T) (rimid : String)
    (hexit : (mainFrom X rimid).outcome.exitStatus = 0) : listedFailureFrom X rimid = false := by
  unfold mainFrom at hexit
  unfold listedFailureFrom
  by_cases hid : rimid = ""
  · simp [hid, Outcome.exitStatus] at hexit
  · simp only [hid, if_false] at hexit ⊢
    cases hget : X.httpGet (urlStr (rimid)) with
    | error err => simp [hget, Outcome.exitStatus] at hexit
    | ok resp =>
      by_cases hs : resp.StatusCode = 200
      · rcases hr : resp.readAll with ⟨body, _ | err⟩
        · by_cases hf : (X.jsonUnmarshal body RimServiceResponse.zero).1.RimFormat = "CORIM"
          · cases hb : X.base64DecodeString
                (X.jsonUnmarshal body RimServiceResponse.zero).1.Rim with
            | error err =>
              simp [hget, hs, hr, decodeEnvelope, hf, hb, Outcome.exitStatus] at hexit
            | ok corimBytes =>
              cases hc : X.fromCOSE corimBytes with
              | error err =>
                simp [hget, hs, hr, decodeEnvelope, hf, hb, decodeAndWalk, hc,
                  Outcome.exitStatus] at hexit
              | ok tags =>
                simp only [hget, hs, hr, decodeEnvelope_decoded X _ body corimBytes hf hb,
                  decodeAndWalk_outcome X _ corimBytes tags hc, ne_eq, not_true_eq_false,
                  if_false] at hexit
                simp only [hget, hs, hr, hf, hb, hc, ne_eq, not_true_eq_false, if_false]
                by_contra hbad
                have hbad2 : tags.any (fun t => isComidTagged X t && undecodable X t) = true := by
                  simpa using hbad
                have hne := walkTags_undecodable X tags NewResultSet hbad2
                rcases walkTags_outcome_cases X tags NewResultSet with h | h | h
                · exact hne h
                · rw [h] at hexit; simp [Outcome.exitStatus] at hexit
                · rw [h] at hexit; simp [Outcome.exitStatus] at hexit
          · simp [hget, hs, hr, decodeEnvelope, hf, Outcome.exitStatus] at hexit
        · simp [hget, hs, hr, Outcome.exitStatus] at hexit
      · simp [hget, hs, Outcome.exitStatus] at hexit

/-- Every listed failure gives a non-zero exit status. -/
theorem mainFrom_failure_nonzero {T : Type} (X : Deps T) (rimid : String)
    (hfail : listedFailureFrom X rimid = true) : (mainFrom X rimid).outcome.exitStatus ≠ 0 := by
  intro hexit
  rw [mainFrom_exit_zero X rimid hexit] at hfail
  cases hfail

/-- When the COSE decoder only yields well-formed tag lists, the exit status
is 0 exactly when none of the listed failures occurs. -/
theorem mainFrom_exit_iff_wf {T : Type} (X : Deps T) (rimid : String)
    (hwf : ∀ buf tags, X.fromCOSE buf = .ok tags → WellFormedTags tags) :
    (mainFrom X rimid).outcome.exitStatus = 0 ↔ listedFailureFrom X rimid = false := by
  refine ⟨mainFrom_exit_zero X rimid, ?_⟩
  intro hno
  unfold listedFailureFrom at hno
  unfold mainFrom
  by_cases hid : rimid = ""
  · simp [hid] at hno
  · simp only [hid, if_false] at hno ⊢
    cases hget : X.httpGet (urlStr (rimid)) with
    | error err => simp [hget] at hno
    | ok resp =>
      by_cases hs : resp.StatusCode = 200
      · rcases hr : resp.readAll with ⟨body, _ | err⟩
        · by_cases hf : (X.jsonUnmarshal body RimServiceResponse.zero).1.RimFormat = "CORIM"
          · cases hb : X.base64DecodeString
                (X.jsonUnmarshal body RimServiceResponse.zero).1.Rim with
            | error err => simp [hget, hs, hr, hf, hb] at hno
            | ok corimBytes =>
              cases hc : X.fromCOSE corimBytes with
              | error err => simp [hget, hs, hr, hf, hb, hc] at hno
              | ok tags =>
                simp only [hget, hs, hr, hf, hb, hc, ne_eq, not_true_eq_false, if_false] at hno
                simp only [hget, hs, hr, ne_eq, not_true_eq_false, if_false,
                  decodeEnvelope_decoded X _ body corimBytes hf hb,
                  decodeAndWalk_outcome X _ corimBytes tags hc,
                  walkTags_outcome_wf X tags NewResultSet (hwf corimBytes tags hc), hno]
                simp [Outcome.exitStatus]
          · simp [hget, hs, hr, hf] at hno
        · simp [hget, hs, hr] at hno
      · simp [hget, hs] at hno

/-! ## Fatal diagnostics -/

/-- The only fatal diagnostic of the tag loop is the CBOR one. -/
theorem walkTags_fatal {T : Type} (X : Deps T) (tags : List Bytes) (coservResult : List T)
    (format : String) (args : List Arg)
    (h : Event.logFatalf format args ∈ (walkTags X tags coservResult).trace) :
    format = "Failed to populate CoMID from CBOR: %v" := by
  induction tags generalizing coservResult with
  | nil => simp [walkTags] at h
  | cons t rest ih =>
    by_cases hlen : 3 ≤ t.length
    · by_cases hc : isComidTagged X t = true
      · have heq : t.take 3 = X.ComidTag := by simpa [isComidTagged] using hc
        simp only [walkTags, sliceTag_long t hlen, heq, if_true] at h
        cases hd : X.comidFromCBOR (t.drop 3) with
        | error err =>
          rw [hd] at h
          simp at h
          exact h.1
        | ok values =>
          rw [hd] at h
          simp only [List.mem_append, List.mem_cons, addTriples_trace, List.mem_flatMap] at h
          rcases h with (h | h) | h
          · rcases h with h | h | h <;> cases h
          · obtain ⟨_, _, h⟩ := h
            simp at h
          · exact ih _ h
      · have hc2 : isComidTagged X t = false := by simpa using hc
        rw [walkTags_skip X t rest coservResult hlen hc2] at h
        exact ih _ h
    · rw [walkTags_short X t rest coservResult (by omega)] at h
      simp at h

/-- A fatal diagnostic of the envelope decoder and what follows it is one of
the four decode diagnostics. -/
theorem decodeEnvelope_fatal {T : Type} (X : Deps T) (trace : List (Event T)) (body : Bytes)
    (format : String) (args : List Arg)
    (h : Event.logFatalf format args ∈ (decodeEnvelope X trace body).trace) :
    Event.logFatalf format args ∈ trace ∨ format ∈ decodeFatalFormats := by
  by_cases hf : (X.jsonUnmarshal body RimServiceResponse.zero).1.RimFormat = "CORIM"
  · cases hb : X.base64DecodeString (X.jsonUnmarshal body RimServiceResponse.zero).1.Rim with
    | error err =>
      rw [decodeEnvelope_base64 X trace body err hf hb] at h
      simp at h
      rcases h with h | h
      · exact Or.inl h
      · right; simp [decodeFatalFormats, h.1]
    | ok corimBytes =>
      rw [decodeEnvelope_decoded X trace body corimBytes hf hb] at h
      cases hc : X.fromCOSE corimBytes with
      | error err =>
        simp [decodeAndWalk, hc] at h
        rcases h with h | h
        · exact Or.inl h
        · right; simp [decodeFatalFormats, h.1]
      | ok tags =>
        simp [decodeAndWalk, hc] at h
        rcases h with h | h
        · exact Or.inl h
        · right
          simp [decodeFatalFormats, walkTags_fatal X tags NewResultSet format args h]
  · rw [decodeEnvelope_format X trace body hf] at h
    simp at h
    rcases h with h | h
    · exact Or.inl h
    · right; simp [decodeFatalFormats, h.1]

/-- The run on a command line that `flag.Parse` accepts. -/
theorem main_parsed {T : Type} (X : Deps T) (args : List String) (rimid : String)
    (hparse : X.flagParse args = .parsed rimid) : main X args = mainFrom X rimid := by
  simp [main, hparse]

/-- The run on a command line on which `flag.Parse` ends the process. -/
theorem main_exits {T : Type} (X : Deps T) (args : List String) (code : Nat)
    (hparse : X.flagParse args = .exits code) :
    main X args = ⟨[Event.flagOutput], .exited code, none⟩ := by
  simp [main, hparse]

/-! ## The gates of the pipeline -/

/-- Claim C4 (format gate).  For every 200 response whose deserialized envelope
has a `rim_format` other than the literal `CORIM`, whatever its `rim` field
holds and whatever the decoders would do, the run ends right after
deserialization with the format diagnostic and status 1: base64 decoding, COSE
decoding, CoMID decoding and appending are never attempted, and no result set
exists. -/
theorem format_gate {T : Type} (X : Deps T) (args : List String) (rimid : String)
    (resp : Response) (body : Bytes) (hparse : X.flagParse args = .parsed rimid)
    (hid : rimid ≠ "") (hget : X.httpGet (urlStr rimid) = .ok resp)
    (hstatus : resp.StatusCode = 200) (hread : resp.readAll = (body, none))
    (hfmt : (X.jsonUnmarshal body RimServiceResponse.zero).1.RimFormat ≠ "CORIM") :
    main X args
      = ⟨fetched rimid body ++ [Event.jsonUnmarshal body, Event.logFatalf
          "Expected RIM to be formatted as CORIM, but the actual format is %s"
          [Arg.str (X.jsonUnmarshal body RimServiceResponse.zero).1.RimFormat]],
         .exited 1, none⟩ ∧
    (main X args).outcome.exitStatus = 1 ∧
    ∀ e ∈ (main X args).trace, e.isDecodeStep = false := by
  have hrun := mainFrom_fetched X rimid resp body hid hget hstatus hread
  rw [decodeEnvelope_format X _ body hfmt, ← main_parsed X args rimid hparse] at hrun
  refine ⟨hrun, ?_, ?_⟩
  · rw [hrun]; rfl
  · rw [hrun]
    intro e he
    simp [fetched] at he
    rcases he with he | he | he | he | he | he <;> subst he <;> rfl

/-- The format gate at work: the format `corim` (lower case) with a `rim` that
is not base64, in front of a CoMID tag that would decode. -/
theorem format_gate_witness :
    main (lab [comidTag78] lowerCaseEnvelope none) sampleFlag
      = ⟨fetched "NV_GPU_DRIVER_GH100_535.86.09" [123, 125] ++
          [Event.jsonUnmarshal [123, 125], Event.logFatalf
            "Expected RIM to be formatted as CORIM, but the actual format is %s"
            [Arg.str "corim"]],
         .exited 1, none⟩ ∧
    (main (lab [comidTag78] lowerCaseEnvelope none) sampleFlag).outcome.exitStatus = 1 ∧
    ∀ e ∈ (main (lab [comidTag78] lowerCaseEnvelope none) sampleFlag).trace,
      e.isDecodeStep = false :=
  format_gate (lab [comidTag78] lowerCaseEnvelope none) sampleFlag
    "NV_GPU_DRIVER_GH100_535.86.09" labResponse [123, 125]
    (by decide) (by decide) rfl rfl rfl (by decide)

/-- Claim C5, as amended.  For every 200 response whose body was read, whose
envelope passes the format gate (`rim_format` is `CORIM`) and whose `rim` field
`base64.StdEncoding.DecodeString` rejects, the run ends with the diagnostic
"Failed to base64 decode the RIM byte string" and the non-zero status 1, and
the COSE decoder is never called. -/
theorem base64_gate {T : Type} (X : Deps T) (args : List String) (rimid : String)
    (resp : Response) (body : Bytes) (err : String)
    (hparse : X.flagParse args = .parsed rimid) (hid : rimid ≠ "")
    (hget : X.httpGet (urlStr rimid) = .ok resp)
    (hstatus : resp.StatusCode = 200) (hread : resp.readAll = (body, none))
    (hfmt : (X.jsonUnmarshal body RimServiceResponse.zero).1.RimFormat = "CORIM")
    (hb64 : X.base64DecodeString (X.jsonUnmarshal body RimServiceResponse.zero).1.Rim
      = .error err) :
    (main X args).trace.getLast?
      = some (Event.logFatalf "Failed to base64 decode the RIM byte string %s"
          [Arg.str (X.jsonUnmarshal body RimServiceResponse.zero).1.Rim]) ∧
    (main X args).outcome = .exited 1 ∧
    (main X args).outcome.exitStatus ≠ 0 ∧
    ∀ e ∈ (main X args).trace, e.isFromCOSE = false := by
  have hrun := mainFrom_fetched X rimid resp body hid hget hstatus hread
  rw [decodeEnvelope_base64 X _ body err hfmt hb64, ← main_parsed X args rimid hparse] at hrun
  rw [hrun]
  refine ⟨by simp [fetched], rfl, by simp [Outcome.exitStatus], ?_⟩
  intro e he
  simp [fetched] at he
  rcases he with he | he | he | he | he | he | he <;> subst he <;> rfl

/-- The base64 gate at work: format `CORIM`, `rim` equal to `!!!`. -/
theorem base64_gate_witness :
    (main (lab [comidTag78] badRimEnvelope none) sampleFlag).trace.getLast?
      = some (Event.logFatalf "Failed to base64 decode the RIM byte string %s"
          [Arg.str "!!!"]) ∧
    (main (lab [comidTag78] badRimEnvelope none) sampleFlag).outcome = .exited 1 ∧
    (main (lab [comidTag78] badRimEnvelope none) sampleFlag).outcome.exitStatus ≠ 0 ∧
    ∀ e ∈ (main (lab [comidTag78] badRimEnvelope none) sampleFlag).trace,
      e.isFromCOSE = false :=
  base64_gate (lab [comidTag78] badRimEnvelope none) sampleFlag
    "NV_GPU_DRIVER_GH100_535.86.09" labResponse [123, 125] "illegal base64 data"
    (by decide) (by decide) rfl rfl rfl rfl rfl

/-- Claim C5, as stated, fails twice.  First, a `rim` field (`!!!`) that is not
valid base64 under the format `corim`: the run ends with the format
diagnostic, the base64 decoder is never called and the base64 diagnostic never
appears.  Second, a `rim` field (`AQ`, line feed, `ID`) that is not valid
standard padded base64 under the format `CORIM`: the decoder ignores the line
feed, the COSE decoder is called on the three decoded bytes and the run ends
with status 0. -/
theorem base64_claim_fails :
    Base64.isStd lowerCaseEnvelope.Rim = false ∧
    (main (lab [comidTag78] lowerCaseEnvelope none) sampleFlag).trace.getLast?
      = some (Event.logFatalf
          "Expected RIM to be formatted as CORIM, but the actual format is %s"
          [Arg.str "corim"]) ∧
    Event.base64DecodeString "!!!"
      ∉ (main (lab [comidTag78] lowerCaseEnvelope none) sampleFlag).trace ∧
    Event.logFatalf "Failed to base64 decode the RIM byte string %s" [Arg.str "!!!"]
      ∉ (main (lab [comidTag78] lowerCaseEnvelope none) sampleFlag).trace ∧
    Base64.isStd lineBreakEnvelope.Rim = false ∧
    Event.fromCOSE [1, 2, 3]
      ∈ (main (lab [comidTag78] lineBreakEnvelope none) sampleFlag).trace ∧
    Event.logFatalf "Failed to base64 decode the RIM byte string %s" [Arg.str "AQ\nID"]
      ∉ (main (lab [comidTag78] lineBreakEnvelope none) sampleFlag).trace ∧
    (main (lab [comidTag78] lineBreakEnvelope none) sampleFlag).outcome.exitStatus = 0 := by
  refine ⟨by decide, rfl, by decide, by decide, by decide, by decide, by decide, rfl⟩

/-- Claim C7, as stated, fails twice.  The command line `-h` has no `-rimid`
flag: `flag.Parse` ends the process with status 0, and the usage line of
line 40 is never printed.  The command line `-rimid=GH100 -bogus` gives a
non-empty identifier: `flag.Parse` ends the process with status 2 and no GET
is issued.  The same happens for `-rimid` without a value. -/
theorem flag_parse_ends_the_run :
    main (lab [comidTag78] corimEnvelope none) ["-h"]
      = ⟨[Event.flagOutput], .exited 0, none⟩ ∧
    (main (lab [comidTag78] corimEnvelope none) ["-h"]).outcome.exitStatus = 0 ∧
    (main (lab [comidTag78] corimEnvelope none) ["-h"]).trace.filter Event.isUsageLine
      = [] ∧
    main (lab [comidTag78] corimEnvelope none) ["-rimid=GH100", "-bogus"]
      = ⟨[Event.flagOutput], .exited 2, none⟩ ∧
    (main (lab [comidTag78] corimEnvelope none) ["-rimid=GH100", "-bogus"]).trace.filter
      Event.isHttpGet = [] ∧
    main (lab [comidTag78] corimEnvelope none) ["-rimid"]
      = ⟨[Event.flagOutput], .exited 2, none⟩ := by
  refine ⟨rfl, rfl, rfl, rfl, rfl, rfl⟩

/-- No event of the tag loop is an HTTP GET. -/
theorem walkTags_no_get {T : Type} (X : Deps T) (tags : List Bytes) (coservResult : List T) :
    (walkTags X tags coservResult).trace.filter Event.isHttpGet = [] := by
  induction tags generalizing coservResult with
  | nil => rfl
  | cons t rest ih =>
    by_cases hlen : 3 ≤ t.length
    · by_cases hc : isComidTagged X t = true
      · have heq : t.take 3 = X.ComidTag := by simpa [isComidTagged] using hc
        simp only [walkTags, sliceTag_long t hlen, heq, if_true]
        cases hd : X.comidFromCBOR (t.drop 3) with
        | error err => rfl
        | ok values =>
          simp only [List.filter_append, ih, addTriples_trace, List.append_nil]
          have : (values.flatMap (fun triple =>
              [Event.logPrintf "Adding a reference value triple to the result." [],
               Event.addReferenceValues triple])).filter Event.isHttpGet = [] := by
            rw [List.filter_eq_nil_iff]
            intro e he
            simp only [List.mem_flatMap, List.mem_cons] at he
            obtain ⟨_, _, he | he | he⟩ := he
            · subst he; simp [Event.isHttpGet]
            · subst he; simp [Event.isHttpGet]
            · simp at he
          rw [this]
          rfl
      · have hc2 : isComidTagged X t = false := by simpa using hc
        rw [walkTags_skip X t rest coservResult hlen hc2]
        exact ih _
    · rw [walkTags_short X t rest coservResult (by omega)]
      rfl

/-- With a non-empty identifier, lines 39-117 call `http.Get` exactly once, on
the query URL. -/
theorem mainFrom_one_get {T : Type} (X : Deps T) (rimid : String) (hid : rimid ≠ "") :
    (mainFrom X rimid).trace.filter Event.isHttpGet
      = [Event.httpGet ("https://rim.attestation.nvidia.com/v1/rim/" ++ rimid)] := by
  unfold mainFrom
  simp only [hid, if_false]
  cases hget : X.httpGet (urlStr rimid) with
  | error err => rfl
  | ok resp =>
    by_cases hs : resp.StatusCode = 200
    · rcases hr : resp.readAll with ⟨body, _ | err⟩
      · simp only [hs, hr, ne_eq, not_true_eq_false, if_false]
        by_cases hf : (X.jsonUnmarshal body RimServiceResponse.zero).1.RimFormat = "CORIM"
        · cases hb : X.base64DecodeString
              (X.jsonUnmarshal body RimServiceResponse.zero).1.Rim with
          | error err =>
            rw [decodeEnvelope_base64 X _ body err hf hb]
            rfl
          | ok corimBytes =>
            rw [decodeEnvelope_decoded X _ body corimBytes hf hb]
            cases hc : X.fromCOSE corimBytes with
            | error err => simp [decodeAndWalk, hc, Event.isHttpGet, urlStr]
            | ok tags => simp [decodeAndWalk, hc, Event.isHttpGet, urlStr, walkTags_no_get]
        · rw [decodeEnvelope_format X _ body hf]
          rfl
      · simp only [hs, hr, ne_eq, not_true_eq_false, if_false]
        rfl
    · simp only [hs, ne_eq, not_false_eq_true, if_true]
      rfl

/-- Claim C7, as amended (CLI gate).  When `flag.Parse` accepts the command
line and leaves the identifier empty (the `-rimid` flag absent or given the
empty string), the run consists of the usage line and an exit with status 1:
no URL is logged and `http.Get` is not called.  When `flag.Parse` accepts the
command line with a non-empty identifier, `http.Get` is called exactly once,
on `https://rim.attestation.nvidia.com/v1/rim/` followed by the identifier as
given.  When `flag.Parse` ends the process itself (status 0 for `-h` and
`-help`, status 2 for a command line it rejects), the run ends there: neither
the usage line of line 40 nor a call of `http.Get` follows. -/
theorem cli_gate {T : Type} (X : Deps T) (empty given ended : List String) (rimid : String)
    (code : Nat) (hempty : X.flagParse empty = .parsed "")
    (hgiven : X.flagParse given = .parsed rimid) (hid : rimid ≠ "")
    (hended : X.flagParse ended = .exits code) :
    main X empty
      = ⟨[Event.fmtPrintf "Usage: %s -rimid=<rim_identifier>\n" [Arg.str X.Args0]],
         .exited 1, none⟩ ∧
    (main X empty).outcome.exitStatus ≠ 0 ∧
    (main X given).trace.filter Event.isHttpGet
      = [Event.httpGet ("https://rim.attestation.nvidia.com/v1/rim/" ++ rimid)] ∧
    main X ended = ⟨[Event.flagOutput], .exited code, none⟩ := by
  have hrun : main X empty = usageRun X := by
    rw [main_parsed X empty "" hempty]
    exact mainFrom_usage X "" rfl
  refine ⟨hrun, ?_, ?_, main_exits X ended code hended⟩
  · rw [hrun]; simp [usageRun, Outcome.exitStatus]
  · rw [main_parsed X given rimid hgiven]
    exact mainFrom_one_get X rimid hid

/-- The CLI gate at work on the command lines without arguments, `-rimid=GH100`
and `-help`, and on `-rimid=`, `-rimid GH100` and `-rimid=GH100 -bogus`. -/
theorem cli_gate_witness :
    (main (lab [comidTag78] corimEnvelope none) []
      = ⟨[Event.fmtPrintf "Usage: %s -rimid=<rim_identifier>\n"
          [Arg.str "nvidia-rim-to-coserv"]], .exited 1, none⟩ ∧
    (main (lab [comidTag78] corimEnvelope none) []).outcome.exitStatus ≠ 0 ∧
    (main (lab [comidTag78] corimEnvelope none) ["-rimid=GH100"]).trace.filter
      Event.isHttpGet
      = [Event.httpGet ("https://rim.attestation.nvidia.com/v1/rim/" ++ "GH100")] ∧
    main (lab [comidTag78] corimEnvelope none) ["-help"]
      = ⟨[Event.flagOutput], .exited 0, none⟩) ∧
    (main (lab [comidTag78] corimEnvelope none) ["-rimid="]
      = ⟨[Event.fmtPrintf "Usage: %s -rimid=<rim_identifier>\n"
          [Arg.str "nvidia-rim-to-coserv"]], .exited 1, none⟩ ∧
    (main (lab [comidTag78] corimEnvelope none) ["-rimid="]).outcome.exitStatus ≠ 0 ∧
    (main (lab [comidTag78] corimEnvelope none) ["-rimid", "GH100"]).trace.filter
      Event.isHttpGet
      = [Event.httpGet ("https://rim.attestation.nvidia.com/v1/rim/" ++ "GH100")] ∧
    main (lab [comidTag78] corimEnvelope none) ["-rimid=GH100", "-bogus"]
      = ⟨[Event.flagOutput], .exited 2, none⟩) :=
  ⟨cli_gate (lab [comidTag78] corimEnvelope none) [] ["-rimid=GH100"] ["-help"] "GH100" 0
      rfl rfl (by decide) rfl,
   cli_gate (lab [comidTag78] corimEnvelope none) ["-rimid="] ["-rimid", "GH100"]
      ["-rimid=GH100", "-bogus"] "GH100" 2 rfl rfl (by decide) rfl⟩

/-! ## The JSON envelope -/

/-- The error that `json.Unmarshal` returns plays no part in the run. -/
theorem main_withUnmarshalError {T : Type} (X : Deps T)
    (e : Bytes → RimServiceResponse → Option String) (args : List String) :
    main (X.withUnmarshalError e) args = main X args := by
  have hflag : (X.withUnmarshalError e).flagParse args = X.flagParse args := rfl
  simp only [main, hflag, mainFrom_withUnmarshalError]

/-- Behind a body that was read, the listed failures are the four decode
failures. -/
theorem listedFailureFrom_fetched {T : Type} (X : Deps T) (rimid : String) (resp : Response)
    (body : Bytes) (hid : rimid ≠ "") (hget : X.httpGet (urlStr rimid) = .ok resp)
    (hstatus : resp.StatusCode = 200) (hread : resp.readAll = (body, none)) :
    listedFailureFrom X rimid = decodeFailure X body := by
  simp [listedFailureFrom, decodeFailure, hid, hget, hstatus, hread]

/-- Each of the four decode failures is fatal: behind a body that was read, a
decode failure gives a non-zero exit status. -/
theorem decodeFailure_fatal {T : Type} (X : Deps T) (args : List String) (rimid : String)
    (resp : Response) (body : Bytes) (hparse : X.flagParse args = .parsed rimid)
    (hid : rimid ≠ "") (hget : X.httpGet (urlStr rimid) = .ok resp)
    (hstatus : resp.StatusCode = 200) (hread : resp.readAll = (body, none))
    (hfail : decodeFailure X body = true) : (main X args).outcome.exitStatus ≠ 0 := by
  rw [main_parsed X args rimid hparse]
  apply mainFrom_failure_nonzero
  rw [listedFailureFrom_fetched X rimid resp body hid hget hstatus hread]
  exact hfail

/-- When the COSE decoder only yields well-formed tag lists, nothing but the
four decode failures is fatal behind a body that was read: without a decode
failure the exit status is 0, whatever `json.Unmarshal` reported. -/
theorem decodeFailure_only_wf {T : Type} (X : Deps T) (args : List String) (rimid : String)
    (resp : Response) (body : Bytes) (hparse : X.flagParse args = .parsed rimid)
    (hid : rimid ≠ "") (hget : X.httpGet (urlStr rimid) = .ok resp)
    (hstatus : resp.StatusCode = 200) (hread : resp.readAll = (body, none))
    (hwf : ∀ buf tags, X.fromCOSE buf = .ok tags → WellFormedTags tags) :
    (main X args).outcome.exitStatus = 0 ↔ decodeFailure X body = false := by
  rw [main_parsed X args rimid hparse, mainFrom_exit_iff_wf X rimid hwf,
    listedFailureFrom_fetched X rimid resp body hid hget hstatus hread]

/-- Claim C8, evaluated.  The body is an object with `rim_format` equal to
`CORIM`, a `rim` that decodes, and a number for `request_id`: `json.Unmarshal`
reports a failure and leaves a usable envelope.  The failure is tolerated, and
none of the four decode failures occurs (format, base64, COSE, CBOR); but the
manifest holds a tag of one byte, and the process ends in a panic, with exit
status 2: an end that is none of the four. -/
theorem json_failure_then_panic :
    (Json.Unmarshal typeErrorBody RimServiceResponse.zero).2.isSome = true ∧
    (Json.Unmarshal typeErrorBody RimServiceResponse.zero).1
      = ⟨"", "AQID", "", "", "CORIM", ""⟩ ∧
    decodeFailure (service [oneByteTag] typeErrorBody) typeErrorBody = false ∧
    (∀ format args, Event.logFatalf format args
      ∉ (main (service [oneByteTag] typeErrorBody) sampleFlag).trace) ∧
    (main (service [oneByteTag] typeErrorBody) sampleFlag).outcome = .panicked ∧
    (main (service [oneByteTag] typeErrorBody) sampleFlag).outcome.exitStatus = 2 := by
  refine ⟨by decide, by decide, by decide, ?_, by decide, by decide⟩
  intro format args h
  have htrace : (main (service [oneByteTag] typeErrorBody) sampleFlag).trace
      = fetched "NV_GPU_DRIVER_GH100_535.86.09" typeErrorBody ++
        [Event.jsonUnmarshal typeErrorBody, Event.base64DecodeString "AQID",
         Event.logPrintf "Decoded %d bytes of CoRIM data." [Arg.int 3],
         Event.fromCOSE [1, 2, 3]] := by decide
  rw [htrace] at h
  simp [fetched] at h

/-! ## Which bodies leave the format unset -/

/-- Storing a string under a name that does not select `rim_format` leaves
`RimFormat` as it is. -/
theorem Json.setField_RimFormat (v : RimServiceResponse) (key s : String)
    (hkey : Json.selects key "rim_format" = false) :
    (Json.setField v key s).RimFormat = v.RimFormat := by
  unfold Json.setField
  split_ifs <;> simp_all

/-- Storing a member that is not a string for `rim_format` leaves `RimFormat`
as it is. -/
theorem Json.store_RimFormat (state : RimServiceResponse × Option String)
    (m : String × Json.Member)
    (hm : Json.selects m.1 "rim_format" = true → m.2.isString = false) :
    (Json.store state m).1.RimFormat = state.1.RimFormat := by
  obtain ⟨key, value⟩ := m
  cases value with
  | string s =>
    have hkey : Json.selects key "rim_format" = false := by
      by_contra h
      have := hm (by simpa using h)
      simp [Json.Member.isString] at this
    simp [Json.store, Json.setField_RimFormat _ key s hkey]
  | null => rfl
  | other =>
    simp only [Json.store]
    split_ifs <;> rfl

/-- Storing the members of an object without a string for `rim_format` leaves
`RimFormat` as it is. -/
theorem Json.foldl_store_RimFormat (members : List (String × Json.Member))
    (state : RimServiceResponse × Option String)
    (hm : ∀ m ∈ members, Json.selects m.1 "rim_format" = true → m.2.isString = false) :
    (members.foldl Json.store state).1.RimFormat = state.1.RimFormat := by
  induction members generalizing state with
  | nil => rfl
  | cons m rest ih =>
    rw [List.foldl_cons, ih _ (fun u hu => hm u (List.mem_cons_of_mem _ hu)),
      Json.store_RimFormat state m (hm m (List.mem_cons_self _ _))]

/-- The empty body is not valid JSON. -/
theorem Json.parse_nil : Json.parse [] = none := by
  decide

/-- A body that is not valid JSON stores nothing. -/
theorem Json.Unmarshal_invalid (body : Bytes) (v : RimServiceResponse)
    (hbody : Json.parse body = none) : (Json.Unmarshal body v).1 = v := by
  simp [Json.Unmarshal, hbody]

/-- The bodies on which `json.Unmarshal` leaves `rim_format` unset: a body that
is not valid JSON, the empty body, and an object without a member whose name
is `rim_format` up to letter case and whose value is a string. -/
theorem Json.Unmarshal_unset (body : Bytes)
    (hbody : Json.parse body = none ∨ body = [] ∨
      ∃ members, Json.parse body = some (.object members) ∧
        ∀ m ∈ members, Json.selects m.1 "rim_format" = true → m.2.isString = false) :
    (Json.Unmarshal body RimServiceResponse.zero).1.RimFormat = "" := by
  rcases hbody with h | h | ⟨members, hparse, hm⟩
  · rw [Json.Unmarshal_invalid body _ h]; rfl
  · subst h
    rw [Json.Unmarshal_invalid [] _ Json.parse_nil]; rfl
  · simp only [Json.Unmarshal, hparse]
    rw [Json.foldl_store_RimFormat members _ hm]
    rfl

/-- Claim C10, as amended (an unset format is fatal).  For every 200 response
whose body was read and leaves the envelope's `rim_format` at its zero value,
the empty string, the run ends right after deserialization with the format diagnostic
reporting an empty actual format and with status 1; base64 and COSE decoding
are never reached.  With `json.Unmarshal` as the decoder that holds in
particular for every body that is not syntactically valid JSON, for the empty
body, and for every JSON object without a member whose name is `rim_format` up
to letter case and whose value is a string. -/
theorem unset_format_is_fatal {T : Type} (X : Deps T) (args : List String) (rimid : String)
    (resp : Response) (body : Bytes) (hparse : X.flagParse args = .parsed rimid)
    (hid : rimid ≠ "") (hget : X.httpGet (urlStr rimid) = .ok resp)
    (hstatus : resp.StatusCode = 200) (hread : resp.readAll = (body, none))
    (hunset : (X.jsonUnmarshal body RimServiceResponse.zero).1.RimFormat
        = RimServiceResponse.zero.RimFormat ∨
      (X.jsonUnmarshal body RimServiceResponse.zero
          = Json.Unmarshal body RimServiceResponse.zero ∧
        (Json.parse body = none ∨ body = [] ∨
          ∃ members, Json.parse body = some (.object members) ∧
            ∀ m ∈ members, Json.selects m.1 "rim_format" = true →
              m.2.isString = false))) :
    main X args
      = ⟨fetched rimid body ++ [Event.jsonUnmarshal body, Event.logFatalf
          "Expected RIM to be formatted as CORIM, but the actual format is %s"
          [Arg.str ""]],
         .exited 1, none⟩ ∧
    (main X args).outcome.exitStatus = 1 ∧
    ∀ e ∈ (main X args).trace, e.isDecodeStep = false := by
  have hempty : (X.jsonUnmarshal body RimServiceResponse.zero).1.RimFormat = "" := by
    rcases hunset with h | ⟨hjson, hbody⟩
    · exact h
    · rw [hjson]
      exact Json.Unmarshal_unset body hbody
  have hfmt : (X.jsonUnmarshal body RimServiceResponse.zero).1.RimFormat ≠ "CORIM" := by
    rw [hempty]; decide
  have hrun := mainFrom_fetched X rimid resp body hid hget hstatus hread
  rw [decodeEnvelope_format X _ body hfmt, hempty, ← main_parsed X args rimid hparse] at hrun
  refine ⟨hrun, ?_, ?_⟩
  · rw [hrun]; rfl
  · rw [hrun]
    intro e he
    simp [fetched] at he
    rcases he with he | he | he | he | he | he <;> subst he <;> rfl

/-- Three bodies that leave the format unset, each in front of a CoMID tag
that would decode: an error page that is not JSON, the empty body, and an
object whose `rim_format` member is `null`. -/
theorem unset_format_is_fatal_witness :
    (main (service [comidTag78] notJsonBody) sampleFlag).outcome.exitStatus = 1 ∧
    (main (service [comidTag78] notJsonBody) sampleFlag).trace.getLast?
      = some (Event.logFatalf
          "Expected RIM to be formatted as CORIM, but the actual format is %s"
          [Arg.str ""]) ∧
    (main (service [comidTag78] []) sampleFlag).outcome.exitStatus = 1 ∧
    (main (service [comidTag78] []) sampleFlag).trace.getLast?
      = some (Event.logFatalf
          "Expected RIM to be formatted as CORIM, but the actual format is %s"
          [Arg.str ""]) ∧
    (main (service [comidTag78] noFormatBody) sampleFlag).outcome.exitStatus = 1 ∧
    (main (service [comidTag78] noFormatBody) sampleFlag).trace.getLast?
      = some (Event.logFatalf
          "Expected RIM to be formatted as CORIM, but the actual format is %s"
          [Arg.str ""]) ∧
    ∀ e ∈ (main (service [comidTag78] noFormatBody) sampleFlag).trace,
      e.isDecodeStep = false := by
  have h1 := unset_format_is_fatal (service [comidTag78] notJsonBody) sampleFlag
    "NV_GPU_DRIVER_GH100_535.86.09" ⟨200, "200 OK", (notJsonBody, none)⟩ notJsonBody
    (by decide) (by decide) rfl rfl rfl (Or.inr ⟨rfl, Or.inl (by decide)⟩)
  have h2 := unset_format_is_fatal (service [comidTag78] []) sampleFlag
    "NV_GPU_DRIVER_GH100_535.86.09" ⟨200, "200 OK", ([], none)⟩ []
    (by decide) (by decide) rfl rfl rfl (Or.inr ⟨rfl, Or.inr (Or.inl rfl)⟩)
  have h3 := unset_format_is_fatal (service [comidTag78] noFormatBody) sampleFlag
    "NV_GPU_DRIVER_GH100_535.86.09" ⟨200, "200 OK", (noFormatBody, none)⟩ noFormatBody
    (by decide) (by decide) rfl rfl rfl
    (Or.inr ⟨rfl, Or.inr (Or.inr ⟨[("id", .string "GH100"), ("rim", .string "AQID"),
      ("rim_format", .null)], by decide, by decide⟩)⟩)
  refine ⟨h1.2.1, ?_, h2.2.1, ?_, h3.2.1, ?_, h3.2.2⟩
  · rw [h1.1]; simp [fetched]
  · rw [h2.1]; simp [fetched]
  · rw [h3.1]; simp [fetched]

/-- Claim C10, as stated, fails.  The body is a JSON object without a member
named `rim_format`: its format member is spelled `RIM_FORMAT`.  The decoder
matches member names without regard to letter case and stores `CORIM`: the
format gate is passed, base64 and COSE decoding are reached and the run ends
with status 0. -/
theorem upper_case_member_sets_format :
    Json.parse upperCaseBody
      = some (.object [("RIM_FORMAT", .string "CORIM"), ("Rim", .string "AQID")]) ∧
    (∀ m ∈ [("RIM_FORMAT", Json.Member.string "CORIM"), ("Rim", Json.Member.string "AQID")],
      m.1 ≠ "rim_format") ∧
    (Json.Unmarshal upperCaseBody RimServiceResponse.zero).1.RimFormat = "CORIM" ∧
    Event.base64DecodeString "AQID"
      ∈ (main (service [comidTag78] upperCaseBody) sampleFlag).trace ∧
    Event.fromCOSE [1, 2, 3]
      ∈ (main (service [comidTag78] upperCaseBody) sampleFlag).trace ∧
    (∀ format args, Event.logFatalf format args
      ∉ (main (service [comidTag78] upperCaseBody) sampleFlag).trace) ∧
    (main (service [comidTag78] upperCaseBody) sampleFlag).outcome.exitStatus = 0 := by
  refine ⟨by decide, by decide, by decide, by decide, by decide, ?_, by decide⟩
  intro format args h
  have htrace : (main (service [comidTag78] upperCaseBody) sampleFlag).trace
      = fetched "NV_GPU_DRIVER_GH100_535.86.09" upperCaseBody ++
        [Event.jsonUnmarshal upperCaseBody, Event.base64DecodeString "AQID",
         Event.logPrintf "Decoded %d bytes of CoRIM data." [Arg.int 3],
         Event.fromCOSE [1, 2, 3],
         Event.logPrintf "Found a CoMID tag." [],
         Event.comidFromCBOR [0xa0, 7, 8],
         Event.logPrintf "Adding a reference value triple to the result." [],
         Event.addReferenceValues 7,
         Event.logPrintf "Adding a reference value triple to the result." [],
         Event.addReferenceValues 8] := by decide
  rw [htrace] at h
  simp [fetched] at h

/-! ## Tags shorter than three bytes -/

/-- On a well-formed tag list without CoMID-tagged tags the program completes:
the result set is empty, the CoMID decoder is never called, the status is 0. -/
theorem main_no_comid_wf {T : Type} (X : Deps T) (args : List String) (rimid : String)
    (resp : Response) (body corimBytes : Bytes) (tags : List Bytes)
    (hparse : X.flagParse args = .parsed rimid) (hid : rimid ≠ "")
    (hget : X.httpGet (urlStr rimid) = .ok resp)
    (hstatus : resp.StatusCode = 200) (hread : resp.readAll = (body, none))
    (hfmt : (X.jsonUnmarshal body RimServiceResponse.zero).1.RimFormat = "CORIM")
    (hb64 : X.base64DecodeString (X.jsonUnmarshal body RimServiceResponse.zero).1.Rim
      = .ok corimBytes)
    (hcose : X.fromCOSE corimBytes = .ok tags)
    (hwf : WellFormedTags tags) (hnone : ∀ t ∈ tags, isComidTagged X t = false) :
    (main X args).coservResult = some [] ∧
    (main X args).outcome.exitStatus = 0 ∧
    ∀ e ∈ (main X args).trace, e.isComidFromCBOR = false := by
  have hrun := mainFrom_fetched X rimid resp body hid hget hstatus hread
  rw [decodeEnvelope_decoded X _ body corimBytes hfmt hb64,
    ← main_parsed X args rimid hparse] at hrun
  simp only [decodeAndWalk, hcose, walkTags_no_comid X tags NewResultSet hwf hnone] at hrun
  rw [hrun]
  refine ⟨rfl, rfl, ?_⟩
  intro e he
  simp [fetched] at he
  rcases he with he | he | he | he | he | he | he | he <;> subst he <;> rfl

/-- Claim C9, evaluated.  The split of line 96 is defined exactly for tags of at
least three bytes.  For a tag of 0, 1 or 2 bytes it is out of bounds, and the
loop panics at such a tag although the tag does not begin with the CoMID
constant: here after a CoSWID tag that was skipped. -/
theorem sliceTag_undefined_below_three :
    (∀ t : Bytes, sliceTag t = none ↔ t.length < 3) ∧
    sliceTag [] = none ∧ sliceTag oneByteTag = none ∧ sliceTag twoByteTag = none ∧
    isComidTagged (lab [] corimEnvelope none) twoByteTag = false ∧
    walkTags (lab [] corimEnvelope none) [coswidTag, twoByteTag] NewResultSet
      = ⟨[], .panicked, []⟩ ∧
    Outcome.panicked.exitStatus = 2 := by
  refine ⟨?_, rfl, rfl, rfl, by decide, rfl, rfl⟩
  intro t
  simp [sliceTag]

/-- Claim C1, evaluated.  The tag list holds one CoMID-tagged tag (N = 1) that
decodes to a CoMID with one triple (M = 1), behind a tag of one byte.  The loop
panics at the first tag: the CoMID decoder is never called and the result set
holds no triple instead of N * M = 1. -/
theorem short_tag_loses_triples :
    ([oneByteTag, comidTag7].filter (isComidTagged (lab [] corimEnvelope none))).length = 1 ∧
    (∀ t ∈ [oneByteTag, comidTag7].filter (isComidTagged (lab [] corimEnvelope none)),
      (lab [] corimEnvelope none).comidFromCBOR (t.drop 3) = .ok [7]) ∧
    (walkTags (lab [] corimEnvelope none) [oneByteTag, comidTag7] NewResultSet).outcome
      = .panicked ∧
    (walkTags (lab [] corimEnvelope none) [oneByteTag, comidTag7] NewResultSet).trace = [] ∧
    (walkTags (lab [] corimEnvelope none) [oneByteTag, comidTag7] NewResultSet).coservResult
      = [] := by
  refine ⟨by decide, ?_, rfl, rfl, rfl⟩
  intro t ht
  have : t = comidTag7 := by
    have hfil : [oneByteTag, comidTag7].filter (isComidTagged (lab [] corimEnvelope none))
        = [comidTag7] := by decide
    rw [hfil] at ht
    simpa using ht
  subst this
  rfl

/-- Claim C2, evaluated.  The tag list is a tag of two bytes followed by a CoMID
tag.  The loop panics with an empty result set; on the list with the
non-CoMID tag deleted it runs to its end and holds the two triples. -/
theorem short_tag_not_skipped :
    [twoByteTag, comidTag78].filter (isComidTagged (lab [] corimEnvelope none))
      = [comidTag78] ∧
    walkTags (lab [] corimEnvelope none) [twoByteTag, comidTag78] NewResultSet
      = ⟨[], .panicked, []⟩ ∧
    (walkTags (lab [] corimEnvelope none)
      ([twoByteTag, comidTag78].filter (isComidTagged (lab [] corimEnvelope none)))
      NewResultSet).outcome = .returned ∧
    (walkTags (lab [] corimEnvelope none)
      ([twoByteTag, comidTag78].filter (isComidTagged (lab [] corimEnvelope none)))
      NewResultSet).coservResult = [7, 8] := by
  refine ⟨by decide, rfl, rfl, rfl⟩

/-- Claim C3, evaluated.  The identifier is given, the request succeeds with
status 200, the body is read, the format is `CORIM`, base64 and COSE decoding
succeed and no CoMID-tagged tag is present, so none of the listed failures
occurs; the manifest holds a tag of one byte and the process ends in a panic,
with exit status 2. -/
theorem panic_exit_not_listed :
    listedFailure (lab [coswidTag, oneByteTag] corimEnvelope none) sampleFlag = false ∧
    (main (lab [coswidTag, oneByteTag] corimEnvelope none) sampleFlag).outcome = .panicked ∧
    (main (lab [coswidTag, oneByteTag] corimEnvelope none) sampleFlag).outcome.exitStatus
      = 2 := by
  refine ⟨by decide, rfl, rfl⟩

/-- Claim C6, evaluated.  The decoded manifest holds a single tag of one byte,
so no tag has the CoMID type bytes.  The result set is empty and the CoMID
decoder is never called, but the process does not complete: it panics, with
exit status 2. -/
theorem short_tag_without_comid_panics :
    [oneByteTag].filter (isComidTagged (lab [oneByteTag] corimEnvelope none)) = [] ∧
    (main (lab [oneByteTag] corimEnvelope none) sampleFlag).coservResult = some [] ∧
    (∀ e ∈ (main (lab [oneByteTag] corimEnvelope none) sampleFlag).trace,
      e.isComidFromCBOR = false) ∧
    (main (lab [oneByteTag] corimEnvelope none) sampleFlag).outcome = .panicked ∧
    (main (lab [oneByteTag] corimEnvelope none) sampleFlag).outcome.exitStatus ≠ 0 := by
  refine ⟨by decide, rfl, by decide, rfl, by decide⟩

end RimToCoserv
